import Mathlib

/-!
Verification of the Visual Climate Demo backend (ETL collector and analytics).

This file gives a shallow embedding of `src/backend/src/collectors/deep_un.py`
and `src/backend/src/logic/analytics.py` and settles a set of claims about
the behaviour of the transform, growth, cache, load, facade and analytics
layers.

Modelling conventions:
* Raw World Bank JSON records are modelled by `RawRecord`; the `date` field of
  the provider is a year string that is taken already parsed (`none` = the
  field is absent / null), `value` is `none` for JSON null, and `countryName`
  models `rec["country"]["value"]` (`none` = the key is absent, in which case
  the source falls back to the iso3 code).
* Numeric values are rational numbers (`ℚ`): every numeric computation of the
  transform layer is exact field arithmetic, floats only matter for the
  fifth-root in the growth table and for p-values, which are modelled in `ℝ`.
* Pandas `DataFrame`s are modelled positionally: a pivoted frame is its sorted
  list of index years, its sorted list of columns and the partial cell map.
* `pivot_table(index, columns, values, aggfunc="first")` groups the rows by
  (year, iso3); `GroupBy.first` takes the first non-null value of the group,
  and the aggregated rows whose group is entirely null are dropped
  (`agged.dropna(how="all")` inside pandas' pivot) before unstacking, so a
  year (column) appears in the index (columns) only if some group of that
  year (column) has a non-null value.
* `DataFrame.interpolate(method="linear", limit=3, axis=0)` ignores the index
  and works on row positions: leading missing entries are preserved, and a
  missing entry is filled exactly when some observed entry is at most 3
  positions before it; interior fills are linear between the two neighbouring
  observed positions (`np.interp`), positions after the last observed one are
  filled with the last observed value (`np.interp` clamps).
-/

/-- Association-list lookup with Python `dict.get` semantics (first match). -/
def dictLookup {κ : Type} {α : Type} [DecidableEq κ] (d : List (κ × α)) (k : κ) : Option α :=
  (d.find? fun p => p.1 = k).map (·.2)

/-- Python dict assignment `d[k] = v`: overwrite in place, else append. -/
def pyDictInsert {κ : Type} {α : Type} [DecidableEq κ] (d : List (κ × α)) (k : κ) (v : α) :
    List (κ × α) :=
  if d.any fun p => p.1 = k then d.map fun p => if p.1 = k then (k, v) else p
  else d ++ [(k, v)]

/-- Python `d.update(kvs)`: assign every pair of `kvs` in order. -/
def pyUpdate {κ : Type} {α : Type} [DecidableEq κ] (d : List (κ × α)) (kvs : List (κ × α)) :
    List (κ × α) :=
  kvs.foldl (fun acc p => pyDictInsert acc p.1 p.2) d

/-- One raw provider record, `{countryiso3code, date, value, country:{value}}`. -/
structure RawRecord where
  countryiso3code : String
  date : Option Int
  value : Option ℚ
  countryName : Option String
deriving DecidableEq, Repr

/-- The fixed denylist `WB_AGGREGATE_CODES` of aggregate/region codes. -/
def WB_AGGREGATE_CODES : List String :=
  ["WLD", "EAS", "ECS", "LCN", "MEA", "NAC", "SAS", "SSF",
   "EAP", "ECA", "LAC", "MNA", "SSA", "HIC", "LIC", "LMC",
   "LMY", "MIC", "UMC", "ARB", "CEB", "CSS", "EAR", "EMU",
   "FCS", "HPC", "IBD", "IBT", "IDA", "IDB", "IDX", "INX",
   "LDC", "LTE", "OED", "OSS", "PRE", "PSS", "PST", "SST",
   "TEA", "TEC", "TLA", "TMN", "TSA", "TSS", "AFE", "AFW"]

/-- A surviving row of the record loop in `_records_to_dataframe`:
`{"iso3": _, "year": _, "value": _}`. -/
abbrev Row := String × Int × Option ℚ

/-- The filtering loop of `_records_to_dataframe`: drop records with an empty
or denylisted country code, drop records with no year. -/
def keptRows (records : List RawRecord) : List Row :=
  records.filterMap fun rec =>
    if rec.countryiso3code = "" ∨ rec.countryiso3code ∈ WB_AGGREGATE_CODES then none
    else
      match rec.date with
      | none => none
      | some y => some (rec.countryiso3code, y, rec.value)

/-- The name-collection side of the loop: the first surviving record of each
iso3 code contributes `country.value` (falling back to the code). -/
def collectNames (records : List RawRecord) : List (String × String) :=
  records.foldl
    (fun acc rec =>
      if rec.countryiso3code = "" ∨ rec.countryiso3code ∈ WB_AGGREGATE_CODES then acc
      else
        match rec.date with
        | none => acc
        | some _ =>
          if acc.any fun p => p.1 = rec.countryiso3code then acc
          else acc ++ [(rec.countryiso3code, rec.countryName.getD rec.countryiso3code)])
    []

/-- Aggregation of one pivot group: `aggfunc="first"` is pandas
`GroupBy.first`, the first non-null value of the (year, iso3) group in input
order, `none` when the group is empty or entirely null. -/
def groupFirst (rows : List Row) (c : String) (y : Int) : Option ℚ :=
  (rows.filterMap fun r => if r.1 = c ∧ r.2.1 = y then r.2.2 else none).head?

/-- The index of the pivoted frame: every year having some non-null group,
sorted ascending (`pivot.sort_index()`); all-null groups were dropped by the
pivot. -/
def tableYears (rows : List Row) : List Int :=
  ((rows.filterMap fun r =>
      if (groupFirst rows r.1 r.2.1).isSome then some r.2.1 else none).dedup).insertionSort
    (· ≤ ·)

/-- Codepoint-lexicographic strict order on character lists, the order Python
and pandas use on `str` labels. -/
def strLtCh : List Char → List Char → Bool
  | [], [] => false
  | [], _ :: _ => true
  | _ :: _, [] => false
  | a :: as, b :: bs =>
    if a.val < b.val then true else if b.val < a.val then false else strLtCh as bs

/-- Codepoint-lexicographic `≤` on strings. -/
def strLeB (a b : String) : Bool := !(strLtCh b.data a.data)

/-- The columns of the pivoted frame: every iso3 code having some non-null
group (unstack sorts column labels). -/
def tableCols (rows : List Row) : List String :=
  ((rows.filterMap fun r =>
      if (groupFirst rows r.1 r.2.1).isSome then some r.1 else none).dedup).insertionSort
    (fun a b => strLeB a b = true)

/-- One column of the pivoted frame before interpolation, in index order. -/
def columnVec (rows : List Row) (c : String) : List (Option ℚ) :=
  (tableYears rows).map fun y => groupFirst rows c y

/-- Largest observed position strictly before `i` of a column, with its value. -/
def prevValid (v : List (Option ℚ)) : ℕ → Option (ℕ × ℚ)
  | 0 => none
  | j + 1 =>
    match v.getD j none with
    | some a => some (j, a)
    | none => prevValid v j

/-- Scan a column suffix for its first observed entry, labelling positions
from `k` up. -/
def nextValidGo : List (Option ℚ) → ℕ → Option (ℕ × ℚ)
  | [], _ => none
  | none :: rest, k => nextValidGo rest (k + 1)
  | some a :: _, k => some (k, a)

/-- Smallest observed position strictly after `i` of a column, with its value. -/
def nextValid (v : List (Option ℚ)) (i : ℕ) : Option (ℕ × ℚ) :=
  nextValidGo (v.drop (i + 1)) (i + 1)

/-- `interpolate(method="linear", limit=3, axis=0)` at position `i` of one
column: observed entries are kept; a missing entry is filled only when an
observed entry is at most 3 positions before it (forward limit, so leading
missing entries stay missing); the fill is `np.interp` — linear between the
surrounding observed positions, clamped to the last observed value after it. -/
def interpAt (v : List (Option ℚ)) (i : ℕ) : Option ℚ :=
  match v.getD i none with
  | some a => some a
  | none =>
    match prevValid v i with
    | none => none
    | some (j, a) =>
      if i - j ≤ 3 then
        match nextValid v i with
        | none => some a
        | some (k, b) => some (a + (b - a) * ((i : ℚ) - (j : ℚ)) / ((k : ℚ) - (j : ℚ)))
      else none

/-- Cell of the transformed table of `_records_to_dataframe` at (year, iso3):
pivot on the surviving rows, sort the index, interpolate per column. -/
def cellAt (records : List RawRecord) (y : Int) (c : String) : Option ℚ :=
  let rows := keptRows records
  if c ∈ tableCols rows then
    match (tableYears rows).findIdx? (fun y' => y' = y) with
    | some i => interpAt (columnVec rows c) i
    | none => none
  else none

/-- A materialised indicator `DataFrame`: index, columns, present cells. -/
structure DFQ where
  years : List Int
  cols : List String
  entries : List (Int × String × ℚ)
deriving DecidableEq, Repr

/-- Cell lookup in a materialised frame. -/
def dfCell (d : DFQ) (y : Int) (c : String) : Option ℚ :=
  (d.entries.find? fun e => e.1 = y ∧ e.2.1 = c).map (·.2.2)

/-- The full `DataFrame` produced by `_records_to_dataframe`. -/
def dfOf (records : List RawRecord) : DFQ :=
  let rows := keptRows records
  { years := tableYears rows
    cols := tableCols rows
    entries :=
      (tableYears rows ×ˢ tableCols rows).filterMap fun p =>
        (cellAt records p.1 p.2).map fun q => (p.1, p.2, q) }

/-- `_records_to_dataframe` returns the pivoted, interpolated frame and the
first-seen country names. -/
def _records_to_dataframe (records : List RawRecord) : DFQ × List (String × String) :=
  (dfOf records, collectNames records)

/-- A growth-rate `DataFrame`: the defined cells are recorded by the
(end, start) pair of base-table values they arise from; the float held in the
cell is `gval window` of the pair. -/
structure GrowthDF where
  years : List Int
  cols : List String
  pairs : List (Int × String × ℚ × ℚ)
deriving DecidableEq, Repr

/-- Defined-cell lookup in a growth frame, as the (end, start) pair. -/
def gPairAt (g : GrowthDF) (y : Int) (c : String) : Option (ℚ × ℚ) :=
  (g.pairs.find? fun e => e.1 = y ∧ e.2.1 = c).map (·.2.2)

/-- Numeric value of a growth cell: `(end/start) ** (1/window) - 1`. -/
noncomputable def gval (window : ℕ) (p : ℚ × ℚ) : ℝ :=
  ((p.1 : ℝ) / (p.2 : ℝ)) ^ ((window : ℝ)⁻¹) - 1

/-- `_compute_growth_rate(df, window)`: empty when the frame has fewer rows
than the window; otherwise `start = df.shift(window)` pairs row `i` with row
`i - window` positionally, and a cell is defined exactly when both the row-`i`
and the row-`(i-window)` values are present and strictly positive
(`valid = (df > 0) & (start > 0)`, `np.where(valid, ..., nan)`). -/
def _compute_growth_rate (d : DFQ) (window : ℕ) : GrowthDF :=
  if d.years.length < window then ⟨[], [], []⟩
  else
    { years := d.years
      cols := d.cols
      pairs :=
        (List.range d.years.length ×ˢ d.cols).filterMap fun p =>
          if window ≤ p.1 then
            match dfCell d (d.years.getD p.1 0) p.2,
                dfCell d (d.years.getD (p.1 - window) 0) p.2 with
            | some x, some s =>
              if 0 < x ∧ 0 < s then some (d.years.getD p.1 0, p.2, x, s) else none
            | _, _ => none
          else none }

/-- Numeric growth-table cell at (year, iso3). -/
noncomputable def growthValueAt (g : GrowthDF) (window : ℕ) (y : Int) (c : String) :
    Option ℝ :=
  (gPairAt g y c).map (gval window)

/-- A value of the on-disk cache dict: either the `_meta` entry
`{"timestamp": ts}` or an indicator's list of raw records. -/
inductive CacheVal where
  | meta : ℚ → CacheVal
  | recs : List RawRecord → CacheVal
deriving DecidableEq

/-- `_save_cache(data)`: the file holds `{"_meta": {"timestamp": now}}`
updated with the complete record map (dict insertion order). -/
def _save_cache (data : List (String × List RawRecord)) (now : ℚ) :
    List (String × CacheVal) :=
  pyUpdate [("_meta", CacheVal.meta now)] (data.map fun p => (p.1, CacheVal.recs p.2))

/-- `_load_cache()`: `none` when the file is absent, when the `_meta` value is
not a dict (the attribute error is caught and treated as a miss), or when
`(now - ts) / 3600` exceeds the freshness window in hours; otherwise the whole
parsed dict. A missing `_meta` key defaults the timestamp to 0. -/
def _load_cache (file : Option (List (String × CacheVal))) (now maxAgeHours : ℚ) :
    Option (List (String × CacheVal)) :=
  match file with
  | none => none
  | some cache =>
    match dictLookup cache "_meta" with
    | some (CacheVal.meta ts) => if (now - ts) / 3600 > maxAgeHours then none else some cache
    | some (CacheVal.recs _) => none
    | none => if (now - 0) / 3600 > maxAgeHours then none else some cache

/-- The static `CLUSTERS` catalog: cluster name, description, and the ordered
short-name → World-Bank-code indicator map. -/
def CLUSTERS : List (String × String × List (String × String)) :=
  [("energy_transition",
    ("Is this country actually decarbonizing, or just greenwashing?",
     [("co2_emissions", "EN.GHG.CO2.PC.CE.AR5"),
      ("renewable_energy", "EG.FEC.RNEW.ZS"),
      ("fossil_fuel_energy_pct", "EG.USE.COMM.FO.ZS"),
      ("access_electricity", "EG.ELC.ACCS.ZS"),
      ("electric_power_kwh", "EG.USE.ELEC.KH.PC"),
      ("energy_use_per_capita", "EG.USE.PCAP.KG.OE"),
      ("alt_nuclear_energy_pct", "EG.USE.COMM.CL.ZS"),
      ("co2_from_transport_pct", "EN.CO2.TRAN.ZS"),
      ("co2_from_manufacturing_pct", "EN.CO2.MANF.ZS"),
      ("co2_from_electricity_pct", "EN.CO2.ETOT.ZS"),
      ("energy_intensity", "EG.EGY.PRIM.PP.KD"),
      ("elec_from_coal_pct", "EG.ELC.COAL.ZS"),
      ("elec_from_gas_pct", "EG.ELC.NGAS.ZS"),
      ("elec_from_oil_pct", "EG.ELC.PETR.ZS"),
      ("elec_from_hydro_pct", "EG.ELC.HYRO.ZS"),
      ("elec_from_nuclear_pct", "EG.ELC.NUCL.ZS")])),
   ("agricultural_resilience",
    ("Will food security collapse under +2°C warming?",
     [("cereal_yield", "AG.YLD.CREL.KG"),
      ("agricultural_land_pct", "AG.LND.AGRI.ZS"),
      ("arable_land_pct", "AG.LND.ARBL.ZS"),
      ("fertilizer_consumption", "AG.CON.FERT.ZS"),
      ("food_production_index", "AG.PRD.FOOD.XD"),
      ("crop_production_index", "AG.PRD.CROP.XD"),
      ("livestock_production_index", "AG.PRD.LVSK.XD"),
      ("methane_agriculture_pct", "EN.ATM.METH.AG.ZS"),
      ("n2o_agriculture_pct", "EN.ATM.NOXE.AG.ZS"),
      ("freshwater_withdrawal_agri", "ER.H2O.FWAG.ZS"),
      ("freshwater_per_capita", "ER.H2O.INTR.PC"),
      ("agriculture_value_added_pct", "NV.AGR.TOTL.ZS"),
      ("employment_agriculture_pct", "SL.AGR.EMPL.ZS"),
      ("forest_area_pct", "AG.LND.FRST.ZS")])),
   ("urban_health",
    ("Are cities becoming death traps due to pollution and heat?",
     [("pm25_exposure", "EN.ATM.PM25.MC.M3"),
      ("pm25_pop_exposed_pct", "EN.ATM.PM25.MC.ZS"),
      ("urban_population_pct", "SP.URB.TOTL.IN.ZS"),
      ("urban_population_growth", "SP.URB.GROW"),
      ("sanitation_safe_pct", "SH.STA.SMSS.ZS"),
      ("water_safe_pct", "SH.H2O.SMDW.ZS"),
      ("sanitation_basic_pct", "SH.STA.BASS.ZS"),
      ("water_basic_pct", "SH.H2O.BASW.ZS"),
      ("mortality_under5", "SH.DYN.MORT"),
      ("life_expectancy", "SP.DYN.LE00.IN"),
      ("health_expenditure_pct_gdp", "SH.XPD.CHEX.GD.ZS"),
      ("population_density", "EN.POP.DNST"),
      ("population_total", "SP.POP.TOTL")])),
   ("economic_risk",
    ("Is the economy too dependent on extracting resources?",
     [("gdp_per_capita", "NY.GDP.PCAP.CD"),
      ("gdp_growth", "NY.GDP.MKTP.KD.ZG"),
      ("inflation", "FP.CPI.TOTL.ZG"),
      ("fdi_net_inflows_pct", "BX.KLT.DINV.WD.GD.ZS"),
      ("natural_resource_rents_pct", "NY.GDP.TOTL.RT.ZS"),
      ("oil_rents_pct", "NY.GDP.PETR.RT.ZS"),
      ("coal_rents_pct", "NY.GDP.COAL.RT.ZS"),
      ("mineral_rents_pct", "NY.GDP.MINR.RT.ZS"),
      ("gas_rents_pct", "NY.GDP.NGAS.RT.ZS"),
      ("forest_rents_pct", "NY.GDP.FRST.RT.ZS"),
      ("trade_pct_gdp", "NE.TRD.GNFS.ZS"),
      ("external_debt_pct_gni", "DT.DOD.DECT.GN.ZS"),
      ("gross_capital_formation_pct", "NE.GDI.TOTL.ZS"),
      ("current_account_balance_pct", "BN.CAB.XOKA.GD.ZS")]))]

/-- The flat `INDICATORS` map: every indicator of every cluster in order. -/
def INDICATORS : List (String × String) :=
  CLUSTERS.foldl (fun acc cl => acc ++ cl.2.2) []

/-- A value of `self._dataframes`: a base indicator frame or a growth frame. -/
inductive StoredDF where
  | base : DFQ → StoredDF
  | growth : GrowthDF → StoredDF
deriving DecidableEq

/-- Column labels of a stored frame. -/
def StoredDF.colsOf : StoredDF → List String
  | .base d => d.cols
  | .growth g => g.cols

/-- Pandas `df.empty`: some axis has length 0. -/
def StoredDF.isEmptyDF : StoredDF → Bool
  | .base d => d.years.isEmpty || d.cols.isEmpty
  | .growth g => g.years.isEmpty || g.cols.isEmpty

/-- The in-memory state of `DeepUNCollector`. -/
structure Collector where
  dataframes : List (String × StoredDF)
  country_names : List (String × String)
  loaded : Bool
deriving DecidableEq

/-- The default `pd.DataFrame()` of `get_indicator_df`. -/
def emptyDF : StoredDF := StoredDF.base ⟨[], [], []⟩

/-- `get_indicator_df`: dict lookup with an empty-frame default. -/
def get_indicator_df (c : Collector) (indicator : String) : StoredDF :=
  (dictLookup c.dataframes indicator).getD emptyDF

/-- `get_country_name`: registry lookup falling back to the code itself. -/
def get_country_name (c : Collector) (iso3 : String) : String :=
  (dictLookup c.country_names iso3).getD iso3

/-- One column of a stored frame with missing entries dropped
(`df[iso3].dropna()`), in index order; growth cells carry their float value. -/
noncomputable def colSeries : StoredDF → String → List (Int × ℝ)
  | .base d, iso3 => d.years.filterMap fun y => (dfCell d y iso3).map fun q => (y, (q : ℝ))
  | .growth g, iso3 => g.years.filterMap fun y => (gPairAt g y iso3).map fun p => (y, gval 5 p)

/-- `get_country_series`: empty when the frame is empty or the country is not
a column, else the column with missing values dropped. -/
noncomputable def get_country_series (c : Collector) (iso3 indicator : String) :
    List (Int × ℝ) :=
  let df := get_indicator_df c indicator
  if df.isEmptyDF ∨ iso3 ∉ df.colsOf then [] else colSeries df iso3

/-- `get_latest_values`: empty for an empty frame, else per column the last
non-missing value (or `none` for an all-missing column). -/
noncomputable def get_latest_values (c : Collector) (indicator : String) :
    List (String × Option ℝ) :=
  let df := get_indicator_df c indicator
  if df.isEmptyDF then []
  else df.colsOf.map fun col => (col, (colSeries df col).getLast?.map (·.2))

/-- `get_all_countries`: the sorted set of columns of all non-empty frames. -/
def get_all_countries (c : Collector) : List String :=
  ((c.dataframes.foldl (fun acc p => if p.2.isEmptyDF then acc else acc ++ p.2.colsOf)
      []).dedup).insertionSort fun a b => strLeB a b = true

/-- `get_all_indicator_names`. -/
def get_all_indicator_names : List String := INDICATORS.map Prod.fst

/-- `get_countries_meta`: `{iso3, name}` for every country with data. -/
def get_countries_meta (c : Collector) : List (String × String) :=
  (get_all_countries c).map fun iso3 => (iso3, get_country_name c iso3)

/-- `get_indicators_meta`: cluster name, description, indicator names. -/
def get_indicators_meta : List (String × String × List String) :=
  CLUSTERS.map fun cl => (cl.1, cl.2.1, cl.2.2.map Prod.fst)

/-- `get_cluster_indicators`: `[]` for an unknown cluster name. -/
def get_cluster_indicators (cluster : String) : List String :=
  ((CLUSTERS.find? fun cl => cl.1 = cluster).map fun cl => cl.2.2.map Prod.fst).getD []

/-- `build_master_snapshot`: one row per known country with the latest value
of every catalog indicator. -/
noncomputable def build_master_snapshot (c : Collector) :
    List (String × String × List (String × Option ℝ)) :=
  (get_all_countries c).map fun iso3 =>
    (iso3, get_country_name c iso3,
      INDICATORS.map fun ind =>
        (ind.1, (get_country_series c iso3 ind.1).getLast?.map (·.2)))

/-- Python `round(x, d)` on an exact rational: round half to even at `d`
decimal digits. -/
def rndHE (x : ℚ) : ℤ :=
  if x - Int.floor x < 1 / 2 then Int.floor x
  else if 1 / 2 < x - Int.floor x then Int.floor x + 1
  else if Int.floor x % 2 = 0 then Int.floor x else Int.floor x + 1

/-- Round a rational to `d` decimal digits, half to even. -/
def roundTo (d : ℕ) (x : ℚ) : ℚ := (rndHE (x * 10 ^ d) : ℚ) / 10 ^ d

/-- Round a real to `d` decimal digits, half to even. -/
noncomputable def roundToR (d : ℕ) (x : ℝ) : ℝ :=
  let f := Int.floor (x * 10 ^ d)
  (if x * 10 ^ d - f < 1 / 2 then (f : ℝ)
   else if 1 / 2 < x * 10 ^ d - f then (f : ℝ) + 1
   else if f % 2 = 0 then (f : ℝ) else (f : ℝ) + 1) / 10 ^ d

/-- One indicator entry of the v2 country profile. -/
structure IndicatorProfile where
  current : Option ℝ
  history : List (Int × ℝ)
  growth_5y : Option ℝ

/-- The v2 country profile. -/
structure CountryProfile where
  iso3 : String
  name : String
  data : List (String × List (String × IndicatorProfile))

/-- `get_country_profile_v2`: per cluster, per indicator, the latest value,
the full history and the latest 5-year growth value of the country. -/
noncomputable def get_country_profile_v2 (c : Collector) (iso3 : String) : CountryProfile :=
  { iso3 := iso3
    name := get_country_name c iso3
    data :=
      CLUSTERS.map fun cl =>
        (cl.1,
          cl.2.2.map fun ind =>
            (ind.1,
              let series := get_country_series c iso3 ind.1
              let growth_series := get_country_series c iso3 (ind.1 ++ "_growth_5y")
              { current := series.getLast?.map fun p => roundToR 4 p.2
                history := series.map fun p => (p.1, roundToR 4 p.2)
                growth_5y := growth_series.getLast?.map fun p => roundToR 6 p.2 })) }

/-- `load_all()`: no-op when already loaded; otherwise hydrate the raw record
map from the fresh cache, fetch every missing indicator, write the cache back
when anything was fetched, transform every record set, merge country names,
derive a 5-year growth frame for every catalog indicator, and mark loaded.
The environment is abstracted by the `fetch` function (one call per fetched
indicator code) and the already-read fresh cache content `cached`; returned
alongside the new state are the list of fetched indicator codes and whether
the cache file was rewritten. -/
def load_all (fetch : String → List RawRecord)
    (cached : Option (List (String × List RawRecord)))
    (c : Collector) : Collector × List String × Bool :=
  if c.loaded then (c, [], false)
  else
    let raw_data : List (String × List RawRecord) :=
      match cached with
      | some cc =>
        (INDICATORS.filterMap fun p => (dictLookup cc p.1).map fun rs => (p.1, rs)) ++
          ((INDICATORS.filter fun p => (dictLookup cc p.1).isNone).map fun p =>
            (p.1, fetch p.2))
      | none => INDICATORS.map fun p => (p.1, fetch p.2)
    let fetchedCodes : List String :=
      match cached with
      | some cc => (INDICATORS.filter fun p => (dictLookup cc p.1).isNone).map Prod.snd
      | none => INDICATORS.map Prod.snd
    let wroteCache : Bool :=
      match cached with
      | some cc => INDICATORS.any fun p => (dictLookup cc p.1).isNone
      | none => true
    let dfs1 := pyUpdate c.dataframes (raw_data.map fun p => (p.1, StoredDF.base (dfOf p.2)))
    let names1 := raw_data.foldl (fun acc p => pyUpdate acc (collectNames p.2)) c.country_names
    let dfs2 :=
      INDICATORS.foldl
        (fun acc p =>
          let d : DFQ :=
            match dictLookup acc p.1 with
            | some (StoredDF.base d) => d
            | some (StoredDF.growth _) => ⟨[], [], []⟩
            | none => ⟨[], [], []⟩
          pyDictInsert acc (p.1 ++ "_growth_5y") (StoredDF.growth (_compute_growth_rate d 5)))
        dfs1
    ({ dataframes := dfs2, country_names := names1, loaded := true }, fetchedCodes, wroteCache)

/-- `invalidate_cache()`: clear the tables and the registry, reset the flag. -/
def invalidate_cache (_ : Collector) : Collector :=
  { dataframes := [], country_names := [], loaded := false }

open MeasureTheory in
/-- Survival function of Student's t distribution with `df` degrees of
freedom, as used by `scipy.stats.linregress` for the two-sided slope test. -/
noncomputable def tSF (df x : ℝ) : ℝ :=
  ∫ t in Set.Ioi x,
    (1 + t ^ 2 / df) ^ (-((df + 1) / 2)) /
      (Real.sqrt df * (Real.Gamma (1 / 2) * Real.Gamma (df / 2) / Real.Gamma ((df + 1) / 2)))

/-- Mean of the x (year) coordinates of a cleaned series. -/
def xmean (clean : List (Int × ℚ)) : ℚ :=
  (clean.map fun p => ((p.1 : ℚ))).sum / (clean.length : ℚ)

/-- Mean of the y (value) coordinates of a cleaned series. -/
def ymean (clean : List (Int × ℚ)) : ℚ :=
  (clean.map fun p => p.2).sum / (clean.length : ℚ)

/-- Sum of squared x deviations. -/
def ssxm (clean : List (Int × ℚ)) : ℚ :=
  (clean.map fun p => ((p.1 : ℚ) - xmean clean) ^ 2).sum

/-- Sum of squared y deviations. -/
def ssym (clean : List (Int × ℚ)) : ℚ :=
  (clean.map fun p => (p.2 - ymean clean) ^ 2).sum

/-- Sum of cross deviations. -/
def ssxym (clean : List (Int × ℚ)) : ℚ :=
  (clean.map fun p => ((p.1 : ℚ) - xmean clean) * (p.2 - ymean clean)).sum

/-- Ordinary-least-squares slope of value against year. -/
def olsSlope (clean : List (Int × ℚ)) : ℚ := ssxym clean / ssxm clean

/-- Ordinary-least-squares intercept. -/
def olsIntercept (clean : List (Int × ℚ)) : ℚ :=
  ymean clean - olsSlope clean * xmean clean

/-- Coefficient of determination as `linregress` computes it: `r = 0` when
either variance vanishes, else the clamped correlation, squared (the clamp of
`r` into `[-1, 1]` becomes `min 1` after squaring). -/
def rsq (clean : List (Int × ℚ)) : ℚ :=
  if ssxm clean = 0 ∨ ssym clean = 0 then 0
  else min 1 (ssxym clean ^ 2 / (ssxm clean * ssym clean))

/-- The correlation coefficient of `scipy.stats.linregress`. -/
noncomputable def linregress_r (sx sy sxy : ℚ) : ℝ :=
  if sx = 0 ∨ sy = 0 then 0
  else max (-1) (min 1 ((sxy : ℝ) / Real.sqrt ((sx : ℝ) * (sy : ℝ))))

/-- The two-sided p-value of `scipy.stats.linregress`: a t test on the slope
with `n - 2` degrees of freedom and scipy's `TINY = 1e-20` guard. -/
noncomputable def linregress_p (n : ℕ) (sx sy sxy : ℚ) : ℝ :=
  let df : ℝ := (n : ℝ) - 2
  let r := linregress_r sx sy sxy
  let tiny : ℝ := 1 / 10 ^ (20 : ℕ)
  let t := r * Real.sqrt (df / ((1 - r + tiny) * (1 + r + tiny)))
  2 * tSF df |t|

/-- `series.dropna()` on a year-indexed series. -/
def dropna_series (s : List (Int × Option ℚ)) : List (Int × ℚ) :=
  s.filterMap fun p => p.2.map fun v => (p.1, v)

/-- One `{year, actual, trend}` entry of `forecast_trend`. -/
structure TrendPoint where
  year : Int
  actual : Option ℚ
  trend : ℚ
deriving DecidableEq, Repr

/-- The result dict of `forecast_trend`; `insufficient` models the presence
of the explanatory `error` field, with the absent numeric keys as `none`. -/
structure ForecastResult where
  target_year : Int
  predicted_value : Option ℚ
  slope_per_year : Option ℚ
  r_squared : Option ℚ
  p_value : Option ℝ
  trend_points : List TrendPoint
  insufficient : Bool

/-- `forecast_trend(series, target_year)`: drop missing values; with fewer
than 3 observations return the explanatory result; otherwise fit
least-squares of value against year and report the rounded statistics and the
trend line with the trailing projection point. -/
noncomputable def forecast_trend (series : List (Int × Option ℚ)) (target_year : Int) :
    ForecastResult :=
  let clean := dropna_series series
  if clean.length < 3 then
    { target_year := target_year, predicted_value := none, slope_per_year := none,
      r_squared := none, p_value := none, trend_points := [], insufficient := true }
  else
    let slope := olsSlope clean
    let intercept := olsIntercept clean
    let predicted := slope * (target_year : ℚ) + intercept
    { target_year := target_year
      predicted_value := some (roundTo 4 predicted)
      slope_per_year := some (roundTo 6 slope)
      r_squared := some (roundTo 4 (rsq clean))
      p_value := some (roundToR 6 (linregress_p clean.length (ssxm clean) (ssym clean)
        (ssxym clean)))
      trend_points :=
        (clean.map fun p =>
          { year := p.1, actual := some (roundTo 4 p.2),
            trend := roundTo 4 (slope * (p.1 : ℚ) + intercept) }) ++
          [{ year := target_year, actual := none, trend := roundTo 4 predicted }]
      insufficient := false }

/-- One ranked entry of `detect_green_growth`. -/
structure GreenRow where
  rank : ℕ
  iso3 : String
  country : String
  gdp_growth_5y : ℚ
  co2_growth_5y : ℚ
  decoupling_score : ℚ
deriving DecidableEq, Repr

/-- The sorted union of the index labels of two series, as
`pd.DataFrame({..})` aligns them. -/
def unionKeys (x y : List (String × Option ℚ)) : List String :=
  ((x.map Prod.fst ++ y.map Prod.fst).dedup).insertionSort fun a b => strLeB a b = true

/-- Alignment plus `dropna()`: the countries carrying a value in both series,
with their (x, y) value pair. -/
def alignSeries (x y : List (String × Option ℚ)) : List (String × ℚ × ℚ) :=
  (unionKeys x y).filterMap fun k =>
    match (dictLookup x k).bind id, (dictLookup y k).bind id with
    | some a, some b => some (k, a, b)
    | _, _ => none

/-- The `green` frame of `detect_green_growth`: aligned rows with GDP growth
`> 0` and CO2 growth `< 0`. -/
def greenRows (co2_growth gdp_growth : List (String × Option ℚ)) :
    List (String × ℚ × ℚ) :=
  (alignSeries co2_growth gdp_growth).filter fun r => decide (0 < r.2.2 ∧ r.2.1 < 0)

/-- The `sorted` frame: `green` sorted by descending decoupling score
`gdp_growth - co2_growth`. -/
def greenSorted (co2_growth gdp_growth : List (String × Option ℚ)) :
    List (String × ℚ × ℚ) :=
  (greenRows co2_growth gdp_growth).insertionSort fun a b =>
    (b.2.2 - b.2.1) ≤ (a.2.2 - a.2.1)

/-- `detect_green_growth(co2_growth, gdp_growth, country_names, top_n)`:
align the two growth series, keep the countries with GDP growth `> 0` and CO2
growth `< 0`, sort by descending decoupling score `gdp - co2`, take the top
`top_n` and emit ranked, percentage-scaled, 2-digit-rounded entries. -/
def detect_green_growth (co2_growth gdp_growth : List (String × Option ℚ))
    (country_names : List (String × String)) (top_n : ℕ) : List GreenRow :=
  (((greenSorted co2_growth gdp_growth).take top_n).enum).map fun p =>
    { rank := p.1 + 1
      iso3 := p.2.1
      country := (dictLookup country_names p.2.1).getD p.2.1
      gdp_growth_5y := roundTo 2 (p.2.2.2 * 100)
      co2_growth_5y := roundTo 2 (p.2.2.1 * 100)
      decoupling_score := roundTo 2 ((p.2.2.2 - p.2.2.1) * 100) }

/-- Mean of the x values of an aligned country series. -/
def corrXm (pts : List (String × ℚ × ℚ)) : ℚ :=
  (pts.map fun p => p.2.1).sum / (pts.length : ℚ)

/-- Mean of the y values of an aligned country series. -/
def corrYm (pts : List (String × ℚ × ℚ)) : ℚ :=
  (pts.map fun p => p.2.2).sum / (pts.length : ℚ)

/-- Sum of squared x deviations of an aligned series. -/
def corrSxx (pts : List (String × ℚ × ℚ)) : ℚ :=
  (pts.map fun p => (p.2.1 - corrXm pts) ^ 2).sum

/-- Sum of squared y deviations of an aligned series. -/
def corrSyy (pts : List (String × ℚ × ℚ)) : ℚ :=
  (pts.map fun p => (p.2.2 - corrYm pts) ^ 2).sum

/-- Sum of cross deviations of an aligned series. -/
def corrSxy (pts : List (String × ℚ × ℚ)) : ℚ :=
  (pts.map fun p => (p.2.1 - corrXm pts) * (p.2.2 - corrYm pts)).sum

/-- The Pearson correlation coefficient as `scipy.stats.pearsonr` computes
it, clipped into `[-1, 1]` (the constant-input path, where scipy emits NaN
with a warning, is outside this model). -/
noncomputable def pearson_r_of (pts : List (String × ℚ × ℚ)) : ℝ :=
  max (-1) (min 1 ((corrSxy pts : ℝ) /
    Real.sqrt ((corrSxx pts : ℝ) * (corrSyy pts : ℝ))))

open MeasureTheory in
/-- The two-sided p-value of `scipy.stats.pearsonr`: under the null the
coefficient follows the beta distribution with shape `n/2 - 1` stretched over
`[-1, 1]`, and `p = 2 * cdf(-|r|)` — an exact distribution, not a normal
approximation. -/
noncomputable def pearsonPBeta (n : ℕ) (r : ℝ) : ℝ :=
  2 * ∫ t in Set.Ioc (-1 : ℝ) (-|r|),
    (1 - t ^ 2) ^ ((n : ℝ) / 2 - 2) /
      (2 ^ ((n : ℝ) - 3) * (Real.Gamma ((n : ℝ) / 2 - 1) * Real.Gamma ((n : ℝ) / 2 - 1) /
        Real.Gamma ((n : ℝ) - 2)))

/-- The result dict of `calculate_correlation`; `insufficient` models the
explanatory `error` field. -/
structure CorrelationResult where
  pearson_r : Option ℝ
  p_value : Option ℝ
  n_samples : ℕ
  scatter : List (String × ℚ × ℚ)
  insufficient : Bool

/-- `calculate_correlation(x_series, y_series)`: align on the countries with
values in both, return the explanatory null result below 3 aligned points,
else the rounded coefficient, the rounded p-value and the aligned scatter
triples. -/
noncomputable def calculate_correlation (x y : List (String × Option ℚ)) :
    CorrelationResult :=
  let combined := alignSeries x y
  if combined.length < 3 then ⟨none, none, combined.length, [], true⟩
  else
    ⟨some (roundToR 4 (pearson_r_of combined)),
     some (roundToR 6 (pearsonPBeta combined.length (pearson_r_of combined))),
     combined.length, combined, false⟩

/-- The x series of the correlation scenario. -/
def c6x : List (String × Option ℚ) := [("A", some 1), ("B", some 2), ("C", some 3)]

/-- The y series of the correlation scenario. -/
def c6y : List (String × Option ℚ) := [("A", some 2), ("B", some 4), ("C", some 6)]

/-- Record set of the spec scenario for the transform: a denylisted "WLD"
row, and USA observations 2000 = 10, 2001 = null, 2002 = 20. -/
def c10recs : List RawRecord :=
  [⟨"WLD", some 2000, some 99, some "World"⟩,
   ⟨"USA", some 2000, some 10, some "United States"⟩,
   ⟨"USA", some 2001, none, some "United States"⟩,
   ⟨"USA", some 2002, some 20, some "United States"⟩]

/-- Record set where USA is observed only in 2000 while FRA carries values
2000–2004, so the table index is 2000–2004 and USA's column is observed only
at the first position. -/
def c1recs : List RawRecord :=
  [⟨"USA", some 2000, some 1, some "United States"⟩,
   ⟨"FRA", some 2000, some 1, some "France"⟩,
   ⟨"FRA", some 2001, some 1, none⟩,
   ⟨"FRA", some 2002, some 1, none⟩,
   ⟨"FRA", some 2003, some 1, none⟩,
   ⟨"FRA", some 2004, some 1, none⟩]

/-- Two surviving records for the same (2000, USA) cell: the first has a null
value, the second the value 10. -/
def c2recs : List RawRecord :=
  [⟨"USA", some 2000, none, some "United States"⟩,
   ⟨"USA", some 2000, some 10, some "United States"⟩]

/-- An indicator table with a non-contiguous year index
1990–1994, 2000 and constant value 1 for USA. -/
def c3df : DFQ :=
  { years := [1990, 1991, 1992, 1993, 1994, 2000]
    cols := ["USA"]
    entries :=
      [(1990, "USA", 1), (1991, "USA", 1), (1992, "USA", 1), (1993, "USA", 1),
       (1994, "USA", 1), (2000, "USA", 1)] }

/-- Raw records producing exactly the table `c3df` through the transform:
USA observed in 1990–1994 and 2000 (a gap of more than 3 years stays open,
and the missing years carry no data at all, so they are dropped from the
index). -/
def c3recs : List RawRecord :=
  [⟨"USA", some 1990, some 1, some "United States"⟩,
   ⟨"USA", some 1991, some 1, none⟩,
   ⟨"USA", some 1992, some 1, none⟩,
   ⟨"USA", some 1993, some 1, none⟩,
   ⟨"USA", some 1994, some 1, none⟩,
   ⟨"USA", some 2000, some 1, none⟩]

/-- A contiguous indicator table 2000–2005 for USA, value 1 until 2004 and 32
in 2005. -/
def c3wdf : DFQ :=
  { years := [2000, 2001, 2002, 2003, 2004, 2005]
    cols := ["USA"]
    entries :=
      [(2000, "USA", 1), (2001, "USA", 1), (2002, "USA", 1), (2003, "USA", 1),
       (2004, "USA", 1), (2005, "USA", 32)] }

/-- A one-indicator raw record map for the cache round-trip witness. -/
def c5data : List (String × List RawRecord) :=
  [("co2_emissions", [⟨"USA", some 2000, some 1, some "United States"⟩])]

/-- A three-point series whose first observation has more than 4 decimal
digits. -/
def c7series : List (Int × Option ℚ) :=
  [(2000, some (1 / 100000)), (2001, some 0), (2002, some 0)]

/-- CO2 growth series of the green-growth scenario. -/
def c8co2 : List (String × Option ℚ) := [("A", some (-2 / 100)), ("B", some (-1 / 100))]

/-- GDP growth series of the green-growth scenario. -/
def c8gdp : List (String × Option ℚ) := [("A", some (3 / 100)), ("B", some (-1 / 100))]

/-- Country names of the green-growth scenario. -/
def c8names : List (String × String) := [("A", "Aland"), ("B", "Bland")]

/-- A small loaded collector state holding one indicator frame with the
single column FRA. -/
def c9col : Collector :=
  { dataframes := [("co2_emissions", StoredDF.base ⟨[2000], ["FRA"], [(2000, "FRA", 1)]⟩)]
    country_names := [("FRA", "France")]
    loaded := true }

theorem mem_keptRows {records : List RawRecord} {r : Row} (h : r ∈ keptRows records) :
    r.1 ≠ "" ∧ r.1 ∉ WB_AGGREGATE_CODES := by
  rw [keptRows, List.mem_filterMap] at h
  obtain ⟨rec, -, hrec⟩ := h
  by_cases hc : rec.countryiso3code = "" ∨ rec.countryiso3code ∈ WB_AGGREGATE_CODES
  · simp [hc] at hrec
  · push_neg at hc
    cases hd : rec.date with
    | none => simp [hc.1, hc.2, hd] at hrec
    | some y =>
      simp only [hd] at hrec
      rw [if_neg (by push_neg; exact hc)] at hrec
      cases hrec
      exact hc

theorem mem_tableCols {rows : List Row} {c : String} (h : c ∈ tableCols rows) :
    ∃ r ∈ rows, r.1 = c := by
  rw [tableCols, List.mem_insertionSort, List.mem_dedup, List.mem_filterMap] at h
  obtain ⟨r, hr, hc⟩ := h
  by_cases hg : (groupFirst rows r.1 r.2.1).isSome
  · exact ⟨r, hr, by simpa [hg] using hc⟩
  · simp [hg] at hc

theorem mem_tableYears {rows : List Row} {y : Int} (h : y ∈ tableYears rows) :
    ∃ r ∈ rows, r.2.1 = y := by
  rw [tableYears, List.mem_insertionSort, List.mem_dedup, List.mem_filterMap] at h
  obtain ⟨r, hr, hy⟩ := h
  by_cases hg : (groupFirst rows r.1 r.2.1).isSome
  · exact ⟨r, hr, by simpa [hg] using hy⟩
  · simp [hg] at hy

theorem cellAt_of_not_col {records : List RawRecord} {c : String}
    (h : c ∉ tableCols (keptRows records)) (y : Int) : cellAt records y c = none := by
  rw [cellAt]
  simp [h]

theorem growth_cols_sub (d : DFQ) (w : ℕ) :
    (_compute_growth_rate d w).cols = [] ∨ (_compute_growth_rate d w).cols = d.cols := by
  rw [_compute_growth_rate]
  split
  · exact Or.inl rfl
  · exact Or.inr rfl

theorem denylisted_dropped {records : List RawRecord} {code : String}
    (h : code = "" ∨ code ∈ WB_AGGREGATE_CODES) :
    code ∉ tableCols (keptRows records) := by
  intro hmem
  obtain ⟨r, hr, hc⟩ := mem_tableCols hmem
  obtain ⟨hne, hnagg⟩ := mem_keptRows hr
  cases h with
  | inl h => exact hne (hc.symm ▸ h)
  | inr h => exact hnagg (hc.symm ▸ h)

theorem keptRows_skips {l1 l2 : List RawRecord} {r : RawRecord}
    (h : r.countryiso3code = "" ∨ r.countryiso3code ∈ WB_AGGREGATE_CODES ∨ r.date = none) :
    keptRows (l1 ++ r :: l2) = keptRows (l1 ++ l2) := by
  rw [keptRows, keptRows, List.filterMap_append, List.filterMap_append, List.filterMap_cons]
  rcases h with h | h | h
  · simp [h]
  · simp [h]
  · by_cases hc : r.countryiso3code = "" ∨ r.countryiso3code ∈ WB_AGGREGATE_CODES
    · simp [hc]
    · simp only [if_neg hc, h]

/-- Claim C10, counterexample: on the spec's own scenario records, the WLD
row is indeed dropped and USA 2000 = 10, 2002 = 20 are kept, but the 2001
cell does not interpolate to 15 — the all-null year 2001 is dropped from the
pivot index, so the cell is absent. -/
theorem C10_counterexample :
    "WLD" ∉ tableCols (keptRows c10recs) ∧
    cellAt c10recs 2000 "USA" = some 10 ∧
    cellAt c10recs 2002 "USA" = some 20 ∧
    cellAt c10recs 2001 "USA" ≠ some 15 ∧
    cellAt c10recs 2001 "USA" = none := by
  refine ⟨by decide, by decide, by decide, by decide, by decide⟩

/-- Claim C10 (amended): denylisted or empty country codes and records with
no year are discarded — no such code is ever a column of an indicator or
growth table and its cells are always absent — and in the scenario the WLD
row is dropped and USA 2000 = 10, 2002 = 20 are kept; however the all-null
year 2001 is dropped from the index before interpolation, so the 2001 cell is
absent rather than interpolated to 15. -/
theorem C10_denylist_amended :
    (∀ (records : List RawRecord) (code : String),
      code = "" ∨ code ∈ WB_AGGREGATE_CODES →
        code ∉ tableCols (keptRows records) ∧
        code ∉ (_compute_growth_rate (dfOf records) 5).cols ∧
        ∀ y, cellAt records y code = none) ∧
    (∀ (l1 l2 : List RawRecord) (r : RawRecord),
      r.countryiso3code = "" ∨ r.countryiso3code ∈ WB_AGGREGATE_CODES ∨ r.date = none →
        keptRows (l1 ++ r :: l2) = keptRows (l1 ++ l2)) ∧
    ("WLD" ∉ tableCols (keptRows c10recs) ∧
      cellAt c10recs 2000 "USA" = some 10 ∧
      cellAt c10recs 2002 "USA" = some 20 ∧
      (2001 : Int) ∉ tableYears (keptRows c10recs) ∧
      cellAt c10recs 2001 "USA" = none) := by
  refine ⟨?_, fun l1 l2 r h => keptRows_skips h, by decide, by decide, by decide, by decide,
    by decide⟩
  intro records code h
  refine ⟨denylisted_dropped h, ?_, fun y => cellAt_of_not_col (denylisted_dropped h) y⟩
  rcases growth_cols_sub (dfOf records) 5 with h1 | h1 <;> rw [h1]
  · simp
  · exact denylisted_dropped h

/-- Witness for C10: the amended claim applied to the scenario input. -/
theorem C10_denylist_witness :
    ("WLD" ∉ tableCols (keptRows c10recs) ∧
      "WLD" ∉ (_compute_growth_rate (dfOf c10recs) 5).cols ∧
      ∀ y, cellAt c10recs y "WLD" = none) ∧
    keptRows ([] ++ (⟨"WLD", some 2000, some 99, some "World"⟩ : RawRecord) ::
        [⟨"USA", some 2000, some 10, some "United States"⟩]) =
      keptRows ([] ++ [(⟨"USA", some 2000, some 10, some "United States"⟩ : RawRecord)]) :=
  ⟨C10_denylist_amended.1 c10recs "WLD" (by decide),
   C10_denylist_amended.2.1 [] [⟨"USA", some 2000, some 10, some "United States"⟩]
     ⟨"WLD", some 2000, some 99, some "World"⟩ (by decide)⟩

theorem findIdx?_self {l : List Int} {y : Int} (h : y ∈ l) :
    ∃ i, l.findIdx? (fun z => z = y) = some i ∧ i < l.length ∧ l.getD i 0 = y := by
  induction l with
  | nil => cases h
  | cons a as ih =>
    by_cases ha : a = y
    · exact ⟨0, by simp [List.findIdx?_cons, ha], by simp, by simp [ha]⟩
    · have h' : y ∈ as := by
        rcases List.mem_cons.1 h with h | h
        · exact absurd h.symm ha
        · exact h
      obtain ⟨i, hi, hlen, hget⟩ := ih h'
      refine ⟨i + 1, ?_, by simpa using hlen, by simpa using hget⟩
      rw [List.findIdx?_cons, if_neg (by simpa using ha), List.findIdx?_succ, hi]
      rfl

theorem columnVec_getD {rows : List Row} {c : String} {i : ℕ}
    (h : i < (tableYears rows).length) :
    (columnVec rows c).getD i none = groupFirst rows c ((tableYears rows).getD i 0) := by
  have hg : (tableYears rows).getD i 0 = (tableYears rows).get ⟨i, h⟩ :=
    List.getD_eq_get _ _ h
  show ((columnVec rows c).get? i).getD none = _
  rw [columnVec, List.get?_map, List.get?_eq_get h, hg]
  rfl

theorem groupFirst_first_nonnull {rows pre post : List Row} {c : String} {y : Int} {v : ℚ}
    (hdec : rows = pre ++ (c, y, some v) :: post)
    (hpre : ∀ r ∈ pre, r.1 = c → r.2.1 = y → r.2.2 = none) :
    groupFirst rows c y = some v := by
  rw [groupFirst, hdec, List.filterMap_append, List.filterMap_cons]
  have hnil : pre.filterMap (fun r => if r.1 = c ∧ r.2.1 = y then r.2.2 else none) = [] := by
    rw [List.filterMap_eq_nil_iff]
    intro r hr
    by_cases hc : r.1 = c ∧ r.2.1 = y
    · simp [hc, hpre r hr hc.1 hc.2]
    · simp [hc]
  rw [hnil]
  simp

theorem groupFirst_isSome_mem {rows : List Row} {c : String} {y : Int}
    (h : (groupFirst rows c y).isSome) : ∃ v, (c, y, some v) ∈ rows := by
  rw [groupFirst] at h
  cases hl : (rows.filterMap fun r => if r.1 = c ∧ r.2.1 = y then r.2.2 else none) with
  | nil => rw [hl] at h; simp at h
  | cons a as =>
    have ha : a ∈ rows.filterMap fun r => if r.1 = c ∧ r.2.1 = y then r.2.2 else none := by
      rw [hl]; exact List.mem_cons_self a as
    rw [List.mem_filterMap] at ha
    obtain ⟨r, hr, hfr⟩ := ha
    by_cases hc : r.1 = c ∧ r.2.1 = y
    · rw [if_pos hc] at hfr
      refine ⟨a, ?_⟩
      have he : (c, y, some a) = r := by rw [← hc.1, ← hc.2, ← hfr]
      rw [he]; exact hr
    · rw [if_neg hc] at hfr
      cases hfr

theorem cellAt_observed {records : List RawRecord} {c : String} {y : Int} {v : ℚ}
    (h : groupFirst (keptRows records) c y = some v)
    (hmem : (c, y, some v) ∈ keptRows records) :
    cellAt records y c = some v := by
  have hcol : c ∈ tableCols (keptRows records) := by
    rw [tableCols, List.mem_insertionSort, List.mem_dedup, List.mem_filterMap]
    exact ⟨(c, y, some v), hmem, by simp [h]⟩
  have hyr : y ∈ tableYears (keptRows records) := by
    rw [tableYears, List.mem_insertionSort, List.mem_dedup, List.mem_filterMap]
    exact ⟨(c, y, some v), hmem, by simp [h]⟩
  obtain ⟨i, hi, hlen, hget⟩ := findIdx?_self hyr
  rw [cellAt]
  simp only [hcol, if_true, hi]
  rw [interpAt, columnVec_getD hlen, hget, h]

/-- Claim C2, counterexample: with surviving records
`(USA, 2000, null), (USA, 2000, 10)` the first encountered record for the
cell has a null value, so by the claim the cell should hold it (be absent) —
but `aggfunc="first"` takes the first non-null value and the cell is 10. -/
theorem C2_counterexample :
    ¬ (∀ (records : List RawRecord) (y : Int) (c : String) (row : Row),
        ((keptRows records).filter fun r => decide (r.1 = c ∧ r.2.1 = y)).head? = some row →
        cellAt records y c = row.2.2) := by
  intro h
  have h10 : cellAt c2recs 2000 "USA" = some 10 := by decide
  have hnone := h c2recs 2000 "USA" ("USA", 2000, none) (by decide)
  rw [h10] at hnone
  cases hnone

/-- Claim C2 (amended): among the surviving records of a (year, country)
cell, the first one carrying a non-null value wins — records with null values
are skipped by the aggregation — and the observed cell survives interpolation
unchanged, so the table is deterministic in input order. -/
theorem C2_first_nonnull_amended :
    ∀ (records : List RawRecord) (y : Int) (c : String) (v : ℚ) (pre post : List Row),
      keptRows records = pre ++ (c, y, some v) :: post →
      (∀ r ∈ pre, r.1 = c → r.2.1 = y → r.2.2 = none) →
      cellAt records y c = some v := by
  intro records y c v pre post hdec hpre
  have hg : groupFirst (keptRows records) c y = some v :=
    groupFirst_first_nonnull hdec hpre
  have hmem : (c, y, some v) ∈ keptRows records := by
    rw [hdec]
    exact List.mem_append.2 (Or.inr (List.mem_cons_self _ _))
  exact cellAt_observed hg hmem

/-- Witness for C2: the amended claim applied to the two-record input — the
null first record is skipped and the cell holds 10. -/
theorem C2_first_nonnull_witness :
    keptRows c2recs = [("USA", 2000, none)] ++ ("USA", 2000, some 10) :: [] ∧
    cellAt c2recs 2000 "USA" = some 10 :=
  ⟨by decide,
   C2_first_nonnull_amended c2recs 2000 "USA" 10 [("USA", 2000, none)] [] (by decide)
     (by decide)⟩

theorem prevValid_spec {v : List (Option ℚ)} :
    ∀ {i j : ℕ} {a : ℚ}, prevValid v i = some (j, a) →
      j < i ∧ v.getD j none = some a ∧ ∀ m, j < m → m < i → v.getD m none = none := by
  intro i
  induction i with
  | zero => intro j a h; cases h
  | succ n ih =>
    intro j a h
    rw [prevValid] at h
    cases hv : v.getD n none with
    | some b =>
      rw [hv] at h
      cases h
      exact ⟨Nat.lt_succ_self n, hv, fun m h1 h2 => absurd h2 (by omega)⟩
    | none =>
      rw [hv] at h
      obtain ⟨hj, hval, hbetween⟩ := ih h
      refine ⟨Nat.lt_succ_of_lt hj, hval, fun m h1 h2 => ?_⟩
      rcases Nat.lt_succ_iff_lt_or_eq.1 h2 with h2 | rfl
      · exact hbetween m h1 h2
      · exact hv

theorem prevValid_none {v : List (Option ℚ)} :
    ∀ {i : ℕ}, prevValid v i = none → ∀ j, j < i → v.getD j none = none := by
  intro i
  induction i with
  | zero => intro _ j hj; omega
  | succ n ih =>
    intro h j hj
    rw [prevValid] at h
    cases hv : v.getD n none with
    | some b => rw [hv] at h; cases h
    | none =>
      rw [hv] at h
      rcases Nat.lt_succ_iff_lt_or_eq.1 hj with hj | rfl
      · exact ih h j hj
      · exact hv

theorem nextValidGo_spec {b : ℚ} :
    ∀ {l : List (Option ℚ)} {k j : ℕ}, nextValidGo l k = some (j, b) →
      ∃ m, j = k + m ∧ m < l.length ∧ l.getD m none = some b ∧
        ∀ m', m' < m → l.getD m' none = none := by
  intro l
  induction l with
  | nil => intro k j h; cases h
  | cons hd tl ih =>
    intro k j h
    cases hd with
    | some a =>
      rw [nextValidGo] at h
      cases h
      exact ⟨0, by omega, by simp, rfl, fun m' hm' => absurd hm' (Nat.not_lt_zero _)⟩
    | none =>
      rw [nextValidGo] at h
      obtain ⟨m, hm, hlen, hval, hbefore⟩ := ih h
      refine ⟨m + 1, by omega, by simpa using hlen, hval, fun m' hm' => ?_⟩
      cases m' with
      | zero => rfl
      | succ m'' => exact hbefore m'' (by omega)

theorem nextValidGo_none :
    ∀ {l : List (Option ℚ)} {k : ℕ}, nextValidGo l k = none →
      ∀ m, m < l.length → l.getD m none = none := by
  intro l
  induction l with
  | nil => intro k _ m hm; simp at hm
  | cons hd tl ih =>
    intro k h m hm
    cases hd with
    | some a => rw [nextValidGo] at h; cases h
    | none =>
      rw [nextValidGo] at h
      cases m with
      | zero => rfl
      | succ m' => exact ih h m' (by simpa using hm)

theorem getD_drop (v : List (Option ℚ)) (n m : ℕ) :
    (v.drop n).getD m none = v.getD (n + m) none := by
  show ((v.drop n).get? m).getD none = (v.get? (n + m)).getD none
  rw [List.get?_drop]

theorem nextValid_spec {v : List (Option ℚ)} {i k : ℕ} {b : ℚ}
    (h : nextValid v i = some (k, b)) :
    i < k ∧ k < v.length ∧ v.getD k none = some b ∧
      ∀ m, i < m → m < k → v.getD m none = none := by
  obtain ⟨m, hm, hlen, hval, hbefore⟩ := nextValidGo_spec h
  rw [List.length_drop] at hlen
  rw [getD_drop] at hval
  refine ⟨by omega, by omega, hm ▸ hval, fun m' h1 h2 => ?_⟩
  have := hbefore (m' - (i + 1)) (by omega)
  rw [getD_drop] at this
  have he : i + 1 + (m' - (i + 1)) = m' := by omega
  rw [he] at this
  exact this

theorem nextValid_none {v : List (Option ℚ)} {i : ℕ}
    (h : nextValid v i = none) : ∀ k, i < k → k < v.length → v.getD k none = none := by
  intro k h1 h2
  have := nextValidGo_none h (k - (i + 1)) (by rw [List.length_drop]; omega)
  rw [getD_drop] at this
  have he : i + 1 + (k - (i + 1)) = k := by omega
  rw [he] at this
  exact this

theorem getD_of_ge_length {v : List (Option ℚ)} {k : ℕ} (h : v.length ≤ k) :
    v.getD k none = none := by
  show (v.get? k).getD none = none
  rw [List.get?_eq_none.2 h]
  rfl

/-- Claim C1, counterexample: in `c1recs` the column USA is observed only in
2000, yet the transformed table carries a (filled) value at 2001 — the
forward interpolation limit pads up to 3 positions past the last observed
year with the last observed value, i.e. the transform extrapolates beyond the
last observed year of a column. -/
theorem C1_counterexample :
    ¬ (∀ (records : List RawRecord) (c : String) (y : Int),
        (cellAt records y c).isSome →
        ∃ y', y ≤ y' ∧ (groupFirst (keptRows records) c y').isSome) := by
  intro h
  obtain ⟨y', hy, hobs⟩ := h c1recs "USA" 2001 (by decide)
  obtain ⟨v, hv⟩ := groupFirst_isSome_mem hobs
  have hk : keptRows c1recs =
      [("USA", 2000, some 1), ("FRA", 2000, some 1), ("FRA", 2001, some 1),
       ("FRA", 2002, some 1), ("FRA", 2003, some 1), ("FRA", 2004, some 1)] := by decide
  rw [hk] at hv
  simp only [List.mem_cons, List.not_mem_nil, or_false, Prod.mk.injEq] at hv
  rcases hv with ⟨-, h2, -⟩ | ⟨h1, -⟩ | ⟨h1, -⟩ | ⟨h1, -⟩ | ⟨h1, -⟩ | ⟨h1, -⟩
  · omega
  all_goals exact absurd h1 (by decide)

/-- Claim C1 (amended): the interpolation of the transform is positional with
a forward limit of 3. For every column vector: (1) a filled missing entry has
an observed entry at most 3 positions before it (so nothing before the first
observation is ever filled, and of a longer missing run only its first 3
positions are filled); its value is the last observed value when nothing is
observed after it (extrapolation past the last observed position!), and
otherwise lies on the positional line between the surrounding observed
entries; (2) a missing entry with no observed entry within the 3 preceding
positions stays missing; (3) every defined table cell arises this way from
its column vector at the position of its year in the sorted index. -/
theorem C1_interpolation_amended :
    (∀ (v : List (Option ℚ)) (i : ℕ) (q : ℚ),
      v.getD i none = none →
      interpAt v i = some q →
      ∃ j a, j < i ∧ i - j ≤ 3 ∧ v.getD j none = some a ∧
        (∀ m, j < m → m < i → v.getD m none = none) ∧
        ((∀ k, i < k → k < v.length → v.getD k none = none) → q = a) ∧
        (∀ k b, i < k → v.getD k none = some b →
          (∀ m, i < m → m < k → v.getD m none = none) →
          q = a + (b - a) * ((i : ℚ) - (j : ℚ)) / ((k : ℚ) - (j : ℚ)))) ∧
    (∀ (v : List (Option ℚ)) (i : ℕ),
      v.getD i none = none →
      (∀ j, j < i → i - j ≤ 3 → v.getD j none = none) →
      interpAt v i = none) ∧
    (∀ (records : List RawRecord) (c : String) (y : Int),
      (cellAt records y c).isSome →
      c ∈ tableCols (keptRows records) ∧
      ∃ i, (tableYears (keptRows records)).findIdx? (fun z => z = y) = some i ∧
        cellAt records y c = interpAt (columnVec (keptRows records) c) i) := by
  refine ⟨?_, ?_, ?_⟩
  · intro v i q hmiss hfill
    rw [interpAt, hmiss] at hfill
    cases hp : prevValid v i with
    | none => rw [hp] at hfill; cases hfill
    | some ja =>
      obtain ⟨j, a⟩ := ja
      rw [hp] at hfill
      dsimp only at hfill
      obtain ⟨hj, hja, hbetween⟩ := prevValid_spec hp
      by_cases hlim : i - j ≤ 3
      · rw [if_pos hlim] at hfill
        refine ⟨j, a, hj, hlim, hja, hbetween, ?_, ?_⟩
        · intro hnone
          cases hn : nextValid v i with
          | none => rw [hn] at hfill; cases hfill; rfl
          | some kb =>
            obtain ⟨k, b⟩ := kb
            obtain ⟨hik, hklen, hkval, -⟩ := nextValid_spec hn
            rw [hnone k hik hklen] at hkval
            cases hkval
        · intro k b hik hkval hkbetween
          cases hn : nextValid v i with
          | none =>
            by_cases hklen : k < v.length
            · rw [nextValid_none hn k hik hklen] at hkval; cases hkval
            · rw [getD_of_ge_length (by omega)] at hkval; cases hkval
          | some kb' =>
            obtain ⟨k', b'⟩ := kb'
            obtain ⟨hik', hklen', hkval', hkbetween'⟩ := nextValid_spec hn
            have hkk : k = k' := by
              rcases Nat.lt_trichotomy k k' with hlt | heq | hgt
              · rw [hkbetween' k hik hlt] at hkval; cases hkval
              · exact heq
              · rw [hkbetween k' hik' hgt] at hkval'; cases hkval'
            subst hkk
            rw [hkval] at hkval'
            cases hkval'
            rw [hn] at hfill
            cases hfill
            rfl
      · rw [if_neg hlim] at hfill; cases hfill
  · intro v i hmiss hnear
    rw [interpAt, hmiss]
    cases hp : prevValid v i with
    | none => rfl
    | some ja =>
      obtain ⟨j, a⟩ := ja
      obtain ⟨hj, hja, -⟩ := prevValid_spec hp
      by_cases hlim : i - j ≤ 3
      · rw [hnear j hj hlim] at hja; cases hja
      · dsimp only
        rw [if_neg hlim]
  · intro records c y hsome
    rw [cellAt] at hsome
    by_cases hcol : c ∈ tableCols (keptRows records)
    · refine ⟨hcol, ?_⟩
      rw [if_pos hcol] at hsome
      cases hidx : (tableYears (keptRows records)).findIdx? (fun z => z = y) with
      | none => rw [hidx] at hsome; cases hsome
      | some i =>
        refine ⟨i, rfl, ?_⟩
        rw [cellAt, if_pos hcol, hidx]
    · rw [if_neg hcol] at hsome; cases hsome

/-- Witness for C1: the amended claim applied to the USA column of `c1recs`
(observed only at position 0): position 4 stays missing (limit 3), and the
defined 2001 cell is the interpolation of the column at index position 1. -/
theorem C1_interpolation_witness :
    interpAt [some (1 : ℚ), none, none, none, none] 4 = none ∧
    cellAt c1recs 2001 "USA" = interpAt (columnVec (keptRows c1recs) "USA") 1 := by
  constructor
  · exact C1_interpolation_amended.2.1 [some 1, none, none, none, none] 4 (by decide) (by decide)
  · obtain ⟨-, i, hi, hcell⟩ := C1_interpolation_amended.2.2 c1recs "USA" 2001 (by decide)
    have hidx : (tableYears (keptRows c1recs)).findIdx? (fun z => z = 2001) = some 1 := by
      decide
    rw [hidx] at hi
    cases hi
    exact hcell

theorem chain_getD {ys : List Int} (h : List.Chain' (fun a b => b = a + 1) ys) :
    ∀ i, i < ys.length → ys.getD i 0 = ys.getD 0 0 + i := by
  induction ys with
  | nil => intro i hi; simp at hi
  | cons a l ih =>
    intro i hi
    cases i with
    | zero => simp
    | succ j =>
      have hj : j < l.length := by simpa using hi
      have hstep := ih h.tail j hj
      have hhead : l.getD 0 0 = a + 1 := by
        cases l with
        | nil => simp at hj
        | cons b m => simpa using (List.chain'_cons.1 h).1
      show l.getD j 0 = a + ((j + 1 : ℕ) : ℤ)
      rw [hstep, hhead]
      push_cast
      ring

theorem chain_inj {ys : List Int} (h : List.Chain' (fun a b => b = a + 1) ys) {i j : ℕ}
    (hi : i < ys.length) (hj : j < ys.length) (he : ys.getD i 0 = ys.getD j 0) : i = j := by
  have h1 := chain_getD h i hi
  have h2 := chain_getD h j hj
  omega

theorem mem_idx {ys : List Int} {y : Int} (h : y ∈ ys) :
    ∃ i, i < ys.length ∧ ys.getD i 0 = y := by
  obtain ⟨⟨i, hi⟩, hg⟩ := List.mem_iff_get.1 h
  exact ⟨i, hi, by rw [List.getD_eq_get _ _ hi]; exact hg⟩

theorem dfCell_mem {d : DFQ} {y : Int} {c : String} {x : ℚ} (h : dfCell d y c = some x) :
    (y, c, x) ∈ d.entries := by
  rw [dfCell] at h
  cases hf : d.entries.find? fun e => e.1 = y ∧ e.2.1 = c with
  | none => rw [hf] at h; cases h
  | some e =>
    rw [hf] at h
    have hp := List.find?_some hf
    have hmem := List.mem_of_find?_eq_some hf
    simp only [Option.map_some'] at h
    simp only [decide_eq_true_eq] at hp
    have hx : e.2.2 = x := Option.some.inj h
    have he : (y, c, x) = e := by rw [← hp.1, ← hp.2, ← hx]
    rw [he]
    exact hmem

theorem pairs_sound {d : DFQ} (hlen : ¬ d.years.length < 5) {e : Int × String × ℚ × ℚ}
    (he : e ∈ (_compute_growth_rate d 5).pairs) :
    ∃ i, i < d.years.length ∧ 5 ≤ i ∧ e.1 = d.years.getD i 0 ∧
      dfCell d (d.years.getD i 0) e.2.1 = some e.2.2.1 ∧
      dfCell d (d.years.getD (i - 5) 0) e.2.1 = some e.2.2.2 ∧
      0 < e.2.2.1 ∧ 0 < e.2.2.2 := by
  rw [_compute_growth_rate, if_neg hlen] at he
  simp only [List.mem_filterMap] at he
  obtain ⟨⟨i, c⟩, hmem, hg⟩ := he
  have hi : i < d.years.length :=
    List.mem_range.1 (List.pair_mem_product.1 hmem).1
  dsimp only at hg
  by_cases h5 : 5 ≤ i
  · rw [if_pos h5] at hg
    cases hx : dfCell d (d.years.getD i 0) c with
    | none => rw [hx] at hg; cases hg
    | some x =>
      cases hs : dfCell d (d.years.getD (i - 5) 0) c with
      | none => rw [hx, hs] at hg; cases hg
      | some s =>
        rw [hx, hs] at hg
        dsimp only at hg
        by_cases hpos : 0 < x ∧ 0 < s
        · rw [if_pos hpos] at hg
          cases hg
          exact ⟨i, hi, h5, rfl, hx, hs, hpos.1, hpos.2⟩
        · rw [if_neg hpos] at hg; cases hg
  · rw [if_neg h5] at hg; cases hg

theorem pairs_complete {d : DFQ} (hlen : ¬ d.years.length < 5) {i : ℕ} {c : String}
    {x s : ℚ} (hi : i < d.years.length) (h5 : 5 ≤ i) (hc : c ∈ d.cols)
    (hx : dfCell d (d.years.getD i 0) c = some x)
    (hs : dfCell d (d.years.getD (i - 5) 0) c = some s) (hxp : 0 < x) (hsp : 0 < s) :
    (d.years.getD i 0, c, x, s) ∈ (_compute_growth_rate d 5).pairs := by
  rw [_compute_growth_rate, if_neg hlen]
  simp only [List.mem_filterMap]
  refine ⟨(i, c), List.pair_mem_product.2 ⟨List.mem_range.2 hi, hc⟩, ?_⟩
  dsimp only
  rw [if_pos h5, hx, hs]
  dsimp only
  rw [if_pos ⟨hxp, hsp⟩]

theorem pairs_key_sound {d : DFQ} (hch : List.Chain' (fun a b => b = a + 1) d.years)
    (hlen : ¬ d.years.length < 5) {e : Int × String × ℚ × ℚ} {y : Int} {c : String}
    (he : e ∈ (_compute_growth_rate d 5).pairs) (h1 : e.1 = y) (h2 : e.2.1 = c) :
    dfCell d y c = some e.2.2.1 ∧ dfCell d (y - 5) c = some e.2.2.2 ∧
      0 < e.2.2.1 ∧ 0 < e.2.2.2 ∧ e = (y, c, e.2.2.1, e.2.2.2) := by
  obtain ⟨i, hi, h5, he1, hex, hes, hp1, hp2⟩ := pairs_sound hlen he
  have hy : d.years.getD i 0 = y := by rw [← he1]; exact h1
  have harith : d.years.getD (i - 5) 0 = y - 5 := by
    have hA := chain_getD hch i hi
    have hB := chain_getD hch (i - 5) (by omega)
    omega
  rw [hy, h2] at hex
  rw [harith, h2] at hes
  exact ⟨hex, hes, hp1, hp2, by rw [← h1, ← h2]⟩

theorem both_cells_idx {d : DFQ} (hch : List.Chain' (fun a b => b = a + 1) d.years)
    (hwf : ∀ e ∈ d.entries, e.1 ∈ d.years ∧ e.2.1 ∈ d.cols) {y : Int} {c : String}
    {x s : ℚ} (hx : dfCell d y c = some x) (hs : dfCell d (y - 5) c = some s) :
    ∃ i, i < d.years.length ∧ 5 ≤ i ∧ d.years.getD i 0 = y ∧
      d.years.getD (i - 5) 0 = y - 5 ∧ c ∈ d.cols := by
  have hym := (hwf _ (dfCell_mem hx)).1
  have hcm := (hwf _ (dfCell_mem hx)).2
  have hy5m := (hwf _ (dfCell_mem hs)).1
  obtain ⟨i, hi, hgi⟩ := mem_idx hym
  obtain ⟨j, hj, hgj⟩ := mem_idx hy5m
  have hA := chain_getD hch i hi
  have hB := chain_getD hch j hj
  have h5 : 5 ≤ i ∧ j = i - 5 := by omega
  refine ⟨i, hi, h5.1, hgi, ?_, hcm⟩
  rw [← h5.2]
  exact hgj

theorem gPairAt_growth (d : DFQ)
    (hch : List.Chain' (fun a b => b = a + 1) d.years)
    (hwf : ∀ e ∈ d.entries, e.1 ∈ d.years ∧ e.2.1 ∈ d.cols)
    (y : Int) (c : String) :
    gPairAt (_compute_growth_rate d 5) y c =
      match dfCell d y c, dfCell d (y - 5) c with
      | some x, some s => if 0 < x ∧ 0 < s then some (x, s) else none
      | _, _ => none := by
  by_cases hlen : d.years.length < 5
  · have hL : gPairAt (_compute_growth_rate d 5) y c = none := by
      rw [_compute_growth_rate, if_pos hlen, gPairAt]
      rfl
    rw [hL]
    cases hx : dfCell d y c with
    | none => rfl
    | some x =>
      cases hs : dfCell d (y - 5) c with
      | none => rfl
      | some s =>
        obtain ⟨i, hi, h5, -, -, -⟩ := both_cells_idx hch hwf hx hs
        omega
  · cases hx : dfCell d y c with
    | none =>
      have hnone : (_compute_growth_rate d 5).pairs.find?
          (fun e => e.1 = y ∧ e.2.1 = c) = none := by
        rw [List.find?_eq_none]
        intro e he hkey
        simp only [decide_eq_true_eq] at hkey
        have hcell := (pairs_key_sound hch hlen he hkey.1 hkey.2).1
        rw [hx] at hcell
        cases hcell
      rw [gPairAt, hnone]
      rfl
    | some x =>
      cases hs : dfCell d (y - 5) c with
      | none =>
        have hnone : (_compute_growth_rate d 5).pairs.find?
            (fun e => e.1 = y ∧ e.2.1 = c) = none := by
          rw [List.find?_eq_none]
          intro e he hkey
          simp only [decide_eq_true_eq] at hkey
          have hcell := (pairs_key_sound hch hlen he hkey.1 hkey.2).2.1
          rw [hs] at hcell
          cases hcell
        rw [gPairAt, hnone]
        rfl
      | some s =>
        obtain ⟨i, hi, h5, hgi, hgi5, hcm⟩ := both_cells_idx hch hwf hx hs
        dsimp only
        by_cases hpos : 0 < x ∧ 0 < s
        · rw [if_pos hpos]
          have hmem := pairs_complete hlen hi h5 hcm (by rw [hgi]; exact hx)
            (by rw [hgi5]; exact hs) hpos.1 hpos.2
          rw [hgi] at hmem
          cases hf : (_compute_growth_rate d 5).pairs.find?
              (fun e => e.1 = y ∧ e.2.1 = c) with
          | none =>
            rw [List.find?_eq_none] at hf
            exact absurd (by simp : ((y, c, x, s).1 = y ∧ (y, c, x, s).2.1 = c : Prop))
              (fun hp => hf _ hmem (by simp [hp.1, hp.2]))
          | some e2 =>
            have hkey := List.find?_some hf
            simp only [decide_eq_true_eq] at hkey
            have hmm := List.mem_of_find?_eq_some hf
            obtain ⟨hex, hes, -, -, hee⟩ := pairs_key_sound hch hlen hmm hkey.1 hkey.2
            rw [hx] at hex
            rw [hs] at hes
            have hx1 : e2.2.2.1 = x := (Option.some.inj hex).symm
            have hs1 : e2.2.2.2 = s := (Option.some.inj hes).symm
            rw [gPairAt, hf]
            simp only [Option.map_some']
            rw [hee]
            dsimp only
            rw [hx1, hs1]
        · rw [if_neg hpos]
          have hnone : (_compute_growth_rate d 5).pairs.find?
              (fun e => e.1 = y ∧ e.2.1 = c) = none := by
            rw [List.find?_eq_none]
            intro e he hkey
            simp only [decide_eq_true_eq] at hkey
            obtain ⟨hex, hes, hq1, hq2, -⟩ := pairs_key_sound hch hlen he hkey.1 hkey.2
            rw [hx] at hex
            rw [hs] at hes
            exact hpos ⟨(Option.some.inj hex) ▸ hq1, (Option.some.inj hes) ▸ hq2⟩
          rw [gPairAt, hnone]
          rfl

/-- Claim C3, counterexample: the record set `c3recs` transforms into the
table `c3df` with the non-contiguous year index 1990–1994, 2000 and constant
positive values. The claim demands the growth cell at 2000 to be absent —
`table[2000 - 5]` does not exist — but `df.shift(window)` is positional,
pairs 2000 with 1990, and the code yields the defined value
`(1/1) ** (1/5) - 1 = 0`. -/
theorem C3_counterexample :
    dfOf c3recs = c3df ∧
    dfCell c3df (2000 - 5) "USA" = none ∧
    growthValueAt (_compute_growth_rate c3df 5) 5 2000 "USA" = some 0 := by
  refine ⟨by decide, by decide, ?_⟩
  have hp : gPairAt (_compute_growth_rate c3df 5) 2000 "USA" = some (1, 1) := by decide
  rw [growthValueAt, hp]
  simp only [Option.map_some']
  rw [gval]
  norm_num [Real.one_rpow]

/-- Claim C3 (amended): the 5-year window of the growth computation is
positional (`df.shift(5)` pairs row `i` with row `i - 5`); on a table whose
year index is contiguous — the intended shape — the original claim holds
verbatim: the growth cell at year `t` is
`(table[t]/table[t-5]) ** (1/5) - 1` exactly when both endpoint values exist
and are strictly positive, and is absent in every other case, in particular
when the table has fewer than 5 rows. -/
theorem C3_growth_amended (d : DFQ)
    (hch : List.Chain' (fun a b => b = a + 1) d.years)
    (hwf : ∀ e ∈ d.entries, e.1 ∈ d.years ∧ e.2.1 ∈ d.cols)
    (y : Int) (c : String) :
    growthValueAt (_compute_growth_rate d 5) 5 y c =
      match dfCell d y c, dfCell d (y - 5) c with
      | some x, some s =>
        if 0 < x ∧ 0 < s then some (((x : ℝ) / (s : ℝ)) ^ (((5 : ℕ) : ℝ))⁻¹ - 1) else none
      | _, _ => none := by
  rw [growthValueAt, gPairAt_growth d hch hwf y c]
  cases dfCell d y c with
  | none => rfl
  | some x =>
    cases dfCell d (y - 5) c with
    | none => rfl
    | some s =>
      dsimp only
      by_cases hpos : 0 < x ∧ 0 < s
      · rw [if_pos hpos, if_pos hpos]
        rfl
      · rw [if_neg hpos, if_neg hpos]
        rfl

/-- Witness for C3: the amended claim applied to the contiguous table
2000–2005; the growth cell at 2005 is `(32/1) ** (1/5) - 1`. -/
theorem C3_growth_witness :
    growthValueAt (_compute_growth_rate c3wdf 5) 5 2005 "USA" =
      some ((32 : ℝ) ^ (((5 : ℕ) : ℝ))⁻¹ - 1) := by
  have hch : List.Chain' (fun a b => b = a + 1) c3wdf.years := by
    norm_num [c3wdf, List.chain'_cons]
  have h := C3_growth_amended c3wdf hch (by decide) 2005 "USA"
  have h1 : dfCell c3wdf 2005 "USA" = some 32 := by decide
  have h2 : dfCell c3wdf (2005 - 5) "USA" = some 1 := by decide
  rw [h1, h2] at h
  dsimp only at h
  rw [if_pos (by norm_num)] at h
  rw [h]
  norm_num

/-- Claim C4, confirmed: `load_all` always leaves the collector in the loaded
state, and a second call on the resulting state — with any environment and no
intervening `invalidate_cache` — is a no-op: it returns the state unchanged,
fetches no indicator code over the network and does not rewrite the cache
file. -/
theorem C4_load_idempotent (fetch : String → List RawRecord)
    (cached : Option (List (String × List RawRecord))) (c : Collector) :
    (load_all fetch cached c).1.loaded = true ∧
      load_all fetch cached (load_all fetch cached c).1 =
        ((load_all fetch cached c).1, [], false) := by
  by_cases h : c.loaded
  · rw [load_all.eq_def, if_pos h]
    exact ⟨h, by rw [load_all.eq_def, if_pos h]⟩
  · rw [load_all.eq_def, if_neg h]
    refine ⟨rfl, ?_⟩
    rw [load_all.eq_def]
    rfl

theorem dictLookup_map_other {κ : Type} {α : Type} [DecidableEq κ] {k q : κ} {w : α}
    (hne : k ≠ q) :
    ∀ d : List (κ × α),
      dictLookup (d.map fun p => if p.1 = q then (q, w) else p) k = dictLookup d k := by
  intro d
  induction d with
  | nil => rfl
  | cons p rest ih =>
    by_cases hp : p.1 = q
    · rw [List.map_cons, if_pos hp]
      rw [dictLookup, dictLookup, List.find?_cons, List.find?_cons]
      have h1 : ((q, w).1 = k) = False := by simp [Ne.symm hne]
      have h2 : (p.1 = k) = False := by simp [hp, Ne.symm hne]
      simp only [h1, h2, decide_False]
      exact ih
    · rw [List.map_cons, if_neg hp]
      rw [dictLookup, dictLookup, List.find?_cons, List.find?_cons]
      by_cases hk : p.1 = k
      · simp [hk]
      · simp only [hk, decide_False]
        exact ih

theorem dictLookup_append_other {κ : Type} {α : Type} [DecidableEq κ] {k q : κ} {w : α}
    (hne : k ≠ q) (d : List (κ × α)) :
    dictLookup (d ++ [(q, w)]) k = dictLookup d k := by
  induction d with
  | nil => simp [dictLookup, Ne.symm hne]
  | cons p rest ih =>
    rw [List.cons_append, dictLookup, dictLookup, List.find?_cons, List.find?_cons]
    by_cases hk : p.1 = k
    · simp [hk]
    · simp only [hk, decide_False]
      exact ih

theorem dictLookup_insert_other {κ : Type} {α : Type} [DecidableEq κ] {k q : κ} {w : α}
    (hne : k ≠ q) (d : List (κ × α)) :
    dictLookup (pyDictInsert d q w) k = dictLookup d k := by
  rw [pyDictInsert]
  by_cases h : d.any fun p => p.1 = q
  · rw [if_pos h]
    exact dictLookup_map_other hne d
  · rw [if_neg h]
    exact dictLookup_append_other hne d

theorem dictLookup_insert_self {κ : Type} {α : Type} [DecidableEq κ] (d : List (κ × α))
    (k : κ) (v : α) : dictLookup (pyDictInsert d k v) k = some v := by
  rw [pyDictInsert]
  by_cases h : d.any fun p => p.1 = k
  · rw [if_pos h]
    induction d with
    | nil => simp at h
    | cons p rest ih =>
      by_cases hp : p.1 = k
      · rw [List.map_cons, if_pos hp, dictLookup, List.find?_cons]
        simp
      · rw [List.map_cons, if_neg hp, dictLookup, List.find?_cons]
        simp only [hp, decide_False]
        exact ih (by simpa [hp] using h)
  · rw [if_neg h]
    induction d with
    | nil => simp [dictLookup]
    | cons p rest ih =>
      have hp : ¬ p.1 = k := by
        intro hk
        exact h (by simp [hk])
      rw [List.cons_append, dictLookup, List.find?_cons]
      simp only [hp, decide_False]
      exact ih (by simpa [hp] using h)

theorem dictLookup_update_other {κ : Type} {α : Type} [DecidableEq κ] {k : κ}
    {kvs : List (κ × α)} (hk : k ∉ kvs.map Prod.fst) (d : List (κ × α)) :
    dictLookup (pyUpdate d kvs) k = dictLookup d k := by
  induction kvs generalizing d with
  | nil => rfl
  | cons q rest ih =>
    rw [pyUpdate, List.foldl_cons]
    have hne : k ≠ q.1 := by
      intro he
      exact hk (by simp [he])
    rw [show (rest.foldl (fun acc p => pyDictInsert acc p.1 p.2)
        (pyDictInsert d q.1 q.2)) = pyUpdate (pyDictInsert d q.1 q.2) rest from rfl]
    rw [ih (by intro hm; exact hk (by simp [hm]))]
    exact dictLookup_insert_other hne d

theorem dictLookup_update_mem {κ : Type} {α : Type} [DecidableEq κ] {k : κ} {v : α}
    {kvs : List (κ × α)} (hnd : (kvs.map Prod.fst).Nodup) (hmem : (k, v) ∈ kvs)
    (d : List (κ × α)) : dictLookup (pyUpdate d kvs) k = some v := by
  induction kvs generalizing d with
  | nil => cases hmem
  | cons q rest ih =>
    rw [pyUpdate, List.foldl_cons]
    rw [show (rest.foldl (fun acc p => pyDictInsert acc p.1 p.2)
        (pyDictInsert d q.1 q.2)) = pyUpdate (pyDictInsert d q.1 q.2) rest from rfl]
    rcases List.mem_cons.1 hmem with he | hm
    · have hk : q.1 = k := by rw [← he]
      have hv : q.2 = v := by rw [← he]
      have hrest : k ∉ rest.map Prod.fst := by
        rw [← hk]
        exact (List.nodup_cons.1 (by simpa using hnd)).1
      rw [dictLookup_update_other hrest]
      rw [hk, ← hv]
      exact dictLookup_insert_self d k q.2
    · exact ih (List.nodup_cons.1 (by simpa using hnd)).2 hm _

theorem dictLookup_mem {κ : Type} {α : Type} [DecidableEq κ] {d : List (κ × α)} {k : κ}
    {v : α} (h : dictLookup d k = some v) : (k, v) ∈ d := by
  rw [dictLookup] at h
  cases hf : d.find? fun p => p.1 = k with
  | none => rw [hf] at h; cases h
  | some e =>
    rw [hf] at h
    have hp := List.find?_some hf
    simp only [decide_eq_true_eq] at hp
    have hv : e.2 = v := Option.some.inj h
    have he : (k, v) = e := by rw [← hp, ← hv]
    rw [he]
    exact List.mem_of_find?_eq_some hf

/-- Claim C5, confirmed: writing a raw-record map (keyed by indicator names,
which never collide with `_meta`) and reading it back at the same instant
within a non-negative freshness window yields the whole written file, and
looking up any written indicator name recovers exactly the records that were
written. -/
theorem C5_cache_roundtrip (data : List (String × List RawRecord)) (now maxAge : ℚ)
    (hage : 0 ≤ maxAge) (hmeta : "_meta" ∉ data.map Prod.fst)
    (hnd : (data.map Prod.fst).Nodup) :
    _load_cache (some (_save_cache data now)) now maxAge = some (_save_cache data now) ∧
      ∀ name rs, dictLookup data name = some rs →
        dictLookup (_save_cache data now) name = some (CacheVal.recs rs) := by
  have hkeys : (data.map fun p => (p.1, CacheVal.recs p.2)).map Prod.fst =
      data.map Prod.fst := by
    rw [List.map_map]
    rfl
  constructor
  · rw [_load_cache]
    have hmetaL : dictLookup (_save_cache data now) "_meta" = some (CacheVal.meta now) := by
      rw [_save_cache, dictLookup_update_other (by rw [hkeys]; exact hmeta)]
      rfl
    rw [hmetaL]
    have hcond : ¬ ((now - now) / 3600 > maxAge) := by
      rw [sub_self, zero_div]
      exact not_lt.2 hage
    dsimp only
    rw [if_neg hcond]
  · intro name rs h
    rw [_save_cache]
    have hmem2 : (name, CacheVal.recs rs) ∈ data.map fun p => (p.1, CacheVal.recs p.2) :=
      List.mem_map.2 ⟨(name, rs), dictLookup_mem h, rfl⟩
    have hnd2 : ((data.map fun p => (p.1, CacheVal.recs p.2)).map Prod.fst).Nodup := by
      rw [hkeys]
      exact hnd
    exact dictLookup_update_mem hnd2 hmem2 _

/-- Witness for C5: the round trip on a one-indicator record map. -/
theorem C5_cache_witness :
    _load_cache (some (_save_cache c5data 1000)) 1000 24 = some (_save_cache c5data 1000) ∧
      dictLookup (_save_cache c5data 1000) "co2_emissions" =
        some (CacheVal.recs [⟨"USA", some 2000, some 1, some "United States"⟩]) := by
  have h := C5_cache_roundtrip c5data 1000 24 (by norm_num) (by decide) (by decide)
  exact ⟨h.1, h.2 "co2_emissions" _ (by decide)⟩

/-- Claim C7, counterexample: the claim says a trend point's `actual` is the
observed value, but the code rounds it to 4 decimal digits: for the series
with value 1/100000 at year 2000 the emitted trend point at 2000 carries
`actual = 0`, which is neither the observed value nor absent. -/
theorem forecast_trend_lt {series : List (Int × Option ℚ)} {target : Int}
    (h : (dropna_series series).length < 3) :
    forecast_trend series target = ⟨target, none, none, none, none, [], true⟩ := by
  rw [forecast_trend, if_pos h]

theorem forecast_trend_ge {series : List (Int × Option ℚ)} {target : Int}
    (h : 3 ≤ (dropna_series series).length) :
    (forecast_trend series target).insufficient = false ∧
    (forecast_trend series target).predicted_value =
      some (roundTo 4 (olsSlope (dropna_series series) * (target : ℚ) +
        olsIntercept (dropna_series series))) ∧
    (forecast_trend series target).slope_per_year =
      some (roundTo 6 (olsSlope (dropna_series series))) ∧
    (forecast_trend series target).r_squared =
      some (roundTo 4 (rsq (dropna_series series))) ∧
    (forecast_trend series target).p_value =
      some (roundToR 6 (linregress_p (dropna_series series).length
        (ssxm (dropna_series series)) (ssym (dropna_series series))
        (ssxym (dropna_series series)))) ∧
    (forecast_trend series target).trend_points =
      ((dropna_series series).map fun p =>
        ⟨p.1, some (roundTo 4 p.2),
          roundTo 4 (olsSlope (dropna_series series) * (p.1 : ℚ) +
            olsIntercept (dropna_series series))⟩) ++
        [⟨target, none, roundTo 4 (olsSlope (dropna_series series) * (target : ℚ) +
          olsIntercept (dropna_series series))⟩] := by
  rw [forecast_trend, if_neg (not_lt.2 h)]
  exact ⟨rfl, rfl, rfl, rfl, rfl, rfl⟩

theorem c7_clean : dropna_series c7series = [(2000, 1 / 100000), (2001, 0), (2002, 0)] := by
  simp [dropna_series, c7series, List.filterMap_cons]

/-- Claim C7, counterexample: the claim says a trend point's `actual` is the
observed value, but the code rounds it to 4 decimal digits: for the series
with value 1/100000 at year 2000 the emitted trend point at 2000 carries
`actual = 0`, which is neither the observed value nor absent. -/
theorem C7_counterexample :
    ¬ (∀ (series : List (Int × Option ℚ)) (target : Int) (tp : TrendPoint),
        tp ∈ (forecast_trend series target).trend_points →
        ∀ v : ℚ, dictLookup series tp.year = some (some v) →
          tp.actual = none ∨ tp.actual = some v) := by
  intro h
  have hpts := (@forecast_trend_ge c7series 2030
    (by rw [c7_clean]; norm_num)).2.2.2.2.2
  rw [c7_clean] at hpts
  have hround : roundTo 4 (1 / 100000 : ℚ) = 0 := by
    rw [roundTo, rndHE]
    norm_num
  have hmem : (⟨2000, some 0,
      roundTo 4 (olsSlope [(2000, 1 / 100000), (2001, 0), (2002, 0)] * ((2000 : Int) : ℚ) +
        olsIntercept [(2000, 1 / 100000), (2001, 0), (2002, 0)])⟩ : TrendPoint) ∈
      (forecast_trend c7series 2030).trend_points := by
    rw [hpts]
    refine List.mem_append_left _ ?_
    rw [← hround]
    exact List.mem_map.2 ⟨((2000 : Int), (1 / 100000 : ℚ)), List.mem_cons_self _ _, rfl⟩
  have hobs : dictLookup c7series (2000 : Int) = some (some (1 / 100000)) := by
    norm_num [dictLookup, c7series, List.find?_cons]
  rcases h c7series 2030 _ hmem (1 / 100000) hobs with h1 | h1
  · cases h1
  · have h0 : (0 : ℚ) = 1 / 100000 := Option.some.inj h1
    norm_num at h0

/-- Claim C7 (amended): `forecast_trend` drops absent values; with fewer than
3 observations it returns only the explanatory flag and a null prediction;
otherwise it fits least squares of value against year and returns the slope
rounded to 6 digits, the prediction at the target year and the coefficient of
determination rounded to 4, the regression p-value rounded to 6, and one
trend point per observed year whose `actual` is the observed value rounded to
4 digits and whose `trend` is the fitted value rounded to 4 digits, plus one
trailing point for the target year with `actual` absent. -/
theorem C7_forecast_amended (series : List (Int × Option ℚ)) (target : Int) :
    ((dropna_series series).length < 3 →
      forecast_trend series target = ⟨target, none, none, none, none, [], true⟩) ∧
    (3 ≤ (dropna_series series).length →
      (forecast_trend series target).insufficient = false ∧
      (forecast_trend series target).predicted_value =
        some (roundTo 4 (olsSlope (dropna_series series) * (target : ℚ) +
          olsIntercept (dropna_series series))) ∧
      (forecast_trend series target).slope_per_year =
        some (roundTo 6 (olsSlope (dropna_series series))) ∧
      (forecast_trend series target).r_squared =
        some (roundTo 4 (rsq (dropna_series series))) ∧
      (forecast_trend series target).p_value =
        some (roundToR 6 (linregress_p (dropna_series series).length
          (ssxm (dropna_series series)) (ssym (dropna_series series))
          (ssxym (dropna_series series)))) ∧
      (forecast_trend series target).trend_points =
        ((dropna_series series).map fun p =>
          ⟨p.1, some (roundTo 4 p.2),
            roundTo 4 (olsSlope (dropna_series series) * (p.1 : ℚ) +
              olsIntercept (dropna_series series))⟩) ++
          [⟨target, none, roundTo 4 (olsSlope (dropna_series series) * (target : ℚ) +
            olsIntercept (dropna_series series))⟩]) :=
  ⟨fun h => forecast_trend_lt h, fun h => forecast_trend_ge h⟩

/-- Witness for C7: the amended claim applied to a three-point series (the
fit succeeds) and to a one-point series (the explanatory null result). -/
theorem C7_forecast_witness :
    (forecast_trend c7series 2030).insufficient = false ∧
    (forecast_trend [((2000 : Int), some (1 : ℚ))] 2030).predicted_value = none := by
  constructor
  · exact ((C7_forecast_amended c7series 2030).2 (by rw [c7_clean]; norm_num)).1
  · rw [(C7_forecast_amended [((2000 : Int), some (1 : ℚ))] 2030).1 (by simp [dropna_series, List.filterMap_cons])]

theorem rndHE_mono {x y : ℚ} (h : x ≤ y) : rndHE x ≤ rndHE y := by
  have hf : Int.floor x ≤ Int.floor y := Int.floor_mono h
  rcases lt_or_eq_of_le hf with hlt | heq
  · have h1 : rndHE x ≤ Int.floor x + 1 := by
      rw [rndHE]
      split_ifs <;> omega
    have h2 : Int.floor y ≤ rndHE y := by
      rw [rndHE]
      split_ifs <;> omega
    omega
  · have hx : ((Int.floor x : ℚ)) ≤ x := Int.floor_le x
    rw [rndHE, rndHE, ← heq]
    split_ifs <;> first | omega | (exfalso; linarith)

theorem roundTo_mono (d : ℕ) {x y : ℚ} (h : x ≤ y) : roundTo d x ≤ roundTo d y := by
  rw [roundTo, roundTo]
  have hpow : (0 : ℚ) < 10 ^ d := by positivity
  have hm : x * 10 ^ d ≤ y * 10 ^ d := mul_le_mul_of_nonneg_right h (le_of_lt hpow)
  exact (div_le_div_iff_of_pos_right hpow).mpr (Int.cast_le.2 (rndHE_mono hm))

theorem bind_id_some {o : Option (Option ℚ)} {a : ℚ} (h : o.bind id = some a) :
    o = some (some a) := by
  cases o with
  | none => cases h
  | some q =>
    cases q with
    | none => cases h
    | some v => simpa using h

theorem alignSeries_mem {x y : List (String × Option ℚ)} {r : String × ℚ × ℚ}
    (h : r ∈ alignSeries x y) :
    dictLookup x r.1 = some (some r.2.1) ∧ dictLookup y r.1 = some (some r.2.2) := by
  rw [alignSeries, List.mem_filterMap] at h
  obtain ⟨k, -, hk⟩ := h
  cases hx : (dictLookup x k).bind id with
  | none => rw [hx] at hk; cases hk
  | some a =>
    cases hy : (dictLookup y k).bind id with
    | none => rw [hx, hy] at hk; cases hk
    | some b =>
      rw [hx, hy] at hk
      dsimp only at hk
      cases hk
      exact ⟨bind_id_some hx, bind_id_some hy⟩

theorem green_row_sound {co2 gdp : List (String × Option ℚ)}
    {names : List (String × String)} {n : ℕ} {e : GreenRow}
    (he : e ∈ detect_green_growth co2 gdp names n) :
    ∃ r : String × ℚ × ℚ, r ∈ alignSeries co2 gdp ∧ 0 < r.2.2 ∧ r.2.1 < 0 ∧
      e.iso3 = r.1 ∧ e.country = (dictLookup names r.1).getD r.1 ∧
      e.gdp_growth_5y = roundTo 2 (r.2.2 * 100) ∧
      e.co2_growth_5y = roundTo 2 (r.2.1 * 100) ∧
      e.decoupling_score = roundTo 2 ((r.2.2 - r.2.1) * 100) := by
  rw [detect_green_growth, List.mem_map] at he
  obtain ⟨⟨i, r⟩, hmem, hfe⟩ := he
  have hr : r ∈ (greenSorted co2 gdp).take n := by
    have hm2 : r ∈ ((greenSorted co2 gdp).take n).enum.map Prod.snd :=
      List.mem_map.2 ⟨(i, r), hmem, rfl⟩
    rwa [List.enum_map_snd] at hm2
  have hr2 := (List.perm_insertionSort _ _).subset (List.take_subset n _ hr)
  rw [greenRows, List.mem_filter] at hr2
  have hcond := of_decide_eq_true hr2.2
  exact ⟨r, hr2.1, hcond.1, hcond.2, by rw [← hfe], by rw [← hfe], by rw [← hfe],
    by rw [← hfe], by rw [← hfe]⟩

/-- Claim C8, confirmed: `detect_green_growth` returns at most `top_n`
entries with consecutive 1-based ranks, sorted by descending decoupling
score; every entry comes from a country present with a value in both growth
series with GDP growth `> 0` and CO2 growth `< 0`, carries the two growth
figures and the score `gdp - co2` scaled by 100 and rounded to 2 digits, and
when no country qualifies the result is empty; the spec scenario yields
exactly the single entry for country A with score 5.0. -/
theorem C8_green_growth :
    (∀ (co2 gdp : List (String × Option ℚ)) (names : List (String × String)) (n : ℕ),
      (detect_green_growth co2 gdp names n).length ≤ n ∧
      (detect_green_growth co2 gdp names n).map GreenRow.rank =
        List.range' 1 (detect_green_growth co2 gdp names n).length ∧
      ((detect_green_growth co2 gdp names n).map GreenRow.decoupling_score).Sorted
        (· ≥ ·) ∧
      (∀ e ∈ detect_green_growth co2 gdp names n,
        ∃ a b : ℚ, dictLookup co2 e.iso3 = some (some a) ∧
          dictLookup gdp e.iso3 = some (some b) ∧ 0 < b ∧ a < 0 ∧
          e.country = (dictLookup names e.iso3).getD e.iso3 ∧
          e.gdp_growth_5y = roundTo 2 (b * 100) ∧
          e.co2_growth_5y = roundTo 2 (a * 100) ∧
          e.decoupling_score = roundTo 2 ((b - a) * 100)) ∧
      ((∀ r ∈ alignSeries co2 gdp, ¬(0 < r.2.2 ∧ r.2.1 < 0)) →
        detect_green_growth co2 gdp names n = [])) ∧
    detect_green_growth c8co2 c8gdp c8names 10 = [⟨1, "A", "Aland", 3, -2, 5⟩] := by
  constructor
  · intro co2 gdp names n
    refine ⟨?_, ?_, ?_, ?_, ?_⟩
    · rw [detect_green_growth, List.length_map, List.enum_length, List.length_take]
      exact min_le_left _ _
    · rw [detect_green_growth, List.map_map]
      have hlen : ((((greenSorted co2 gdp).take n).enum).map fun p =>
          ({ rank := p.1 + 1, iso3 := p.2.1,
             country := (dictLookup names p.2.1).getD p.2.1,
             gdp_growth_5y := roundTo 2 (p.2.2.2 * 100),
             co2_growth_5y := roundTo 2 (p.2.2.1 * 100),
             decoupling_score := roundTo 2 ((p.2.2.2 - p.2.2.1) * 100) } : GreenRow)).length =
          ((greenSorted co2 gdp).take n).length := by
        rw [List.length_map, List.enum_length]
      rw [hlen]
      have hcomp : (GreenRow.rank ∘ fun p : ℕ × String × ℚ × ℚ =>
          ({ rank := p.1 + 1, iso3 := p.2.1,
             country := (dictLookup names p.2.1).getD p.2.1,
             gdp_growth_5y := roundTo 2 (p.2.2.2 * 100),
             co2_growth_5y := roundTo 2 (p.2.2.1 * 100),
             decoupling_score := roundTo 2 ((p.2.2.2 - p.2.2.1) * 100) } : GreenRow)) =
          (fun k => k + 1) ∘ Prod.fst := rfl
      rw [hcomp, ← List.map_map, List.enum_map_fst, List.range'_eq_map_range]
      exact List.map_congr_left fun a _ => Nat.add_comm a 1
    · rw [detect_green_growth, List.map_map]
      have hcomp : (GreenRow.decoupling_score ∘ fun p : ℕ × String × ℚ × ℚ =>
          ({ rank := p.1 + 1, iso3 := p.2.1,
             country := (dictLookup names p.2.1).getD p.2.1,
             gdp_growth_5y := roundTo 2 (p.2.2.2 * 100),
             co2_growth_5y := roundTo 2 (p.2.2.1 * 100),
             decoupling_score := roundTo 2 ((p.2.2.2 - p.2.2.1) * 100) } : GreenRow)) =
          (fun r : String × ℚ × ℚ => roundTo 2 ((r.2.2 - r.2.1) * 100)) ∘ Prod.snd := rfl
      rw [hcomp, ← List.map_map, List.enum_map_snd]
      have hsorted : List.Pairwise (fun a b : String × ℚ × ℚ =>
          (b.2.2 - b.2.1) ≤ (a.2.2 - a.2.1)) (greenSorted co2 gdp) := by
        rw [greenSorted]
        haveI : IsTotal (String × ℚ × ℚ) (fun a b =>
            (b.2.2 - b.2.1) ≤ (a.2.2 - a.2.1)) := ⟨fun a b => le_total _ _⟩
        haveI : IsTrans (String × ℚ × ℚ) (fun a b =>
            (b.2.2 - b.2.1) ≤ (a.2.2 - a.2.1)) := ⟨fun a b c h1 h2 => le_trans h2 h1⟩
        exact List.sorted_insertionSort _ _
      have htake := List.Pairwise.sublist (List.take_sublist n _) hsorted
      rw [List.Sorted, List.pairwise_map]
      refine htake.imp fun hab => ?_
      exact roundTo_mono 2 (mul_le_mul_of_nonneg_right hab (by norm_num))
    · intro e he
      obtain ⟨r, hmem, hgdp, hco2, hiso, hcountry, hg, hc, hd⟩ := green_row_sound he
      obtain ⟨hl1, hl2⟩ := alignSeries_mem hmem
      exact ⟨r.2.1, r.2.2, by rw [hiso]; exact hl1, by rw [hiso]; exact hl2, hgdp, hco2,
        by rw [hcountry, hiso], hg, hc, hd⟩
    · intro hnone
      have hgreen : greenRows co2 gdp = [] := by
        rw [greenRows, List.filter_eq_nil_iff]
        intro r hr
        simpa using hnone r hr
      rw [detect_green_growth, greenSorted, hgreen]
      simp
  · with_unfolding_all decide

/-- Witness for C8: the scenario entry satisfies the per-entry obligations,
and a pair of identical growth series (no country decoupling) yields the
empty ranking. -/
theorem C8_green_growth_witness :
    (∃ a b : ℚ, dictLookup c8co2 "A" = some (some a) ∧
      dictLookup c8gdp "A" = some (some b) ∧ 0 < b ∧ a < 0 ∧
      ("Aland" : String) = (dictLookup c8names "A").getD "A" ∧
      (3 : ℚ) = roundTo 2 (b * 100) ∧ ((-2 : ℚ)) = roundTo 2 (a * 100) ∧
      (5 : ℚ) = roundTo 2 ((b - a) * 100)) ∧
    detect_green_growth c8gdp c8gdp c8names 10 = [] := by
  constructor
  · exact (C8_green_growth.1 c8co2 c8gdp c8names 10).2.2.2.1 ⟨1, "A", "Aland", 3, -2, 5⟩
      (by with_unfolding_all decide)
  · exact (C8_green_growth.1 c8gdp c8gdp c8names 10).2.2.2.2 (by with_unfolding_all decide)

/-- Claim C9, confirmed: every identifier-taking Façade accessor tolerates an
unknown identifier by returning an empty result. An unknown indicator name
yields the empty frame, an empty series and an empty latest-values series; an
unknown country code yields an empty series and a country profile whose every
cluster entry has `current = none`, empty history and `growth_5y = none`; an
unregistered country name falls back to echoing the code. (The snapshot and
the metadata accessors take no identifier, so the claim is vacuous for them;
all accessors are total functions of the state, so none can raise.) -/
theorem C9_facade_unknown_empty :
    ∀ (c : Collector) (indicator iso3 : String),
      (dictLookup c.dataframes indicator = none →
        get_indicator_df c indicator = emptyDF ∧
        get_country_series c iso3 indicator = [] ∧
        get_latest_values c indicator = []) ∧
      ((∀ p ∈ c.dataframes, iso3 ∉ p.2.colsOf) →
        get_country_series c iso3 indicator = [] ∧
        (get_country_profile_v2 c iso3).data =
          CLUSTERS.map fun cl => (cl.1, cl.2.2.map fun ind =>
            (ind.1, ⟨none, [], none⟩))) ∧
      (dictLookup c.country_names iso3 = none →
        get_country_name c iso3 = iso3 ∧
        (get_country_profile_v2 c iso3).name = iso3) := by
  intro c indicator iso3
  refine ⟨?_, ?_, ?_⟩
  · intro h
    refine ⟨?_, ?_, ?_⟩
    · rw [get_indicator_df, h]
      rfl
    · simp [get_country_series, get_indicator_df, h, emptyDF, StoredDF.isEmptyDF]
    · simp [get_latest_values, get_indicator_df, h, emptyDF, StoredDF.isEmptyDF]
  · intro hcols
    have hseries : ∀ ind, get_country_series c iso3 ind = [] := by
      intro ind
      cases hl : dictLookup c.dataframes ind with
      | none => simp [get_country_series, get_indicator_df, hl, emptyDF, StoredDF.isEmptyDF]
      | some df =>
        have hni : iso3 ∉ df.colsOf := hcols (ind, df) (dictLookup_mem hl)
        simp [get_country_series, get_indicator_df, hl, hni]
    refine ⟨hseries indicator, ?_⟩
    rw [get_country_profile_v2]
    dsimp only
    refine List.map_congr_left fun cl _ => ?_
    refine congrArg (Prod.mk cl.1) ?_
    refine List.map_congr_left fun ind _ => ?_
    rw [hseries ind.1, hseries (ind.1 ++ "_growth_5y")]
    rfl
  · intro h
    constructor
    · rw [get_country_name, h]
      rfl
    · rw [get_country_profile_v2]
      dsimp only
      rw [get_country_name, h]
      rfl

/-- Witness for C9: the accessors applied to a one-indicator collector with
the unknown indicator "nope" and the unknown country "XYZ". -/
theorem C9_facade_witness :
    get_country_series c9col "FRA" "nope" = [] ∧
    get_country_series c9col "XYZ" "co2_emissions" = [] ∧
    (get_country_profile_v2 c9col "XYZ").data =
      CLUSTERS.map (fun cl => (cl.1, cl.2.2.map fun ind =>
        (ind.1, ⟨none, [], none⟩))) ∧
    get_country_name c9col "XYZ" = "XYZ" :=
  ⟨((C9_facade_unknown_empty c9col "nope" "FRA").1 (by decide)).2.1,
   ((C9_facade_unknown_empty c9col "co2_emissions" "XYZ").2.1 (by decide)).1,
   ((C9_facade_unknown_empty c9col "co2_emissions" "XYZ").2.1 (by decide)).2,
   ((C9_facade_unknown_empty c9col "co2_emissions" "XYZ").2.2 (by decide)).1⟩

theorem correlation_insufficient {x y : List (String × Option ℚ)}
    (h : (alignSeries x y).length < 3) :
    calculate_correlation x y = ⟨none, none, (alignSeries x y).length, [], true⟩ := by
  rw [calculate_correlation, if_pos h]

theorem correlation_sufficient {x y : List (String × Option ℚ)}
    (h : 3 ≤ (alignSeries x y).length) :
    (calculate_correlation x y).pearson_r =
      some (roundToR 4 (pearson_r_of (alignSeries x y))) ∧
    (calculate_correlation x y).p_value =
      some (roundToR 6 (pearsonPBeta (alignSeries x y).length
        (pearson_r_of (alignSeries x y)))) ∧
    (calculate_correlation x y).n_samples = (alignSeries x y).length ∧
    (calculate_correlation x y).scatter = alignSeries x y ∧
    (calculate_correlation x y).insufficient = false := by
  rw [calculate_correlation, if_neg (not_lt.2 h)]
  exact ⟨rfl, rfl, rfl, rfl, rfl⟩

theorem correlation_scenario_r_one :
    (calculate_correlation c6x c6y).pearson_r = some 1 := by
  have halign : alignSeries c6x c6y = [("A", 1, 2), ("B", 2, 4), ("C", 3, 6)] := by decide
  have hxm : corrXm [("A", (1 : ℚ), (2 : ℚ)), ("B", 2, 4), ("C", 3, 6)] = 2 := by
    norm_num [corrXm]
  have hym : corrYm [("A", (1 : ℚ), (2 : ℚ)), ("B", 2, 4), ("C", 3, 6)] = 4 := by
    norm_num [corrYm]
  have hsxx : corrSxx [("A", (1 : ℚ), (2 : ℚ)), ("B", 2, 4), ("C", 3, 6)] = 2 := by
    norm_num [corrSxx, hxm]
  have hsyy : corrSyy [("A", (1 : ℚ), (2 : ℚ)), ("B", 2, 4), ("C", 3, 6)] = 8 := by
    norm_num [corrSyy, hym]
  have hsxy : corrSxy [("A", (1 : ℚ), (2 : ℚ)), ("B", 2, 4), ("C", 3, 6)] = 4 := by
    norm_num [corrSxy, hxm, hym]
  have hr : pearson_r_of [("A", (1 : ℚ), (2 : ℚ)), ("B", 2, 4), ("C", 3, 6)] = 1 := by
    rw [pearson_r_of, hsxx, hsyy, hsxy]
    have hprod : ((2 : ℚ) : ℝ) * ((8 : ℚ) : ℝ) = 16 := by norm_num
    rw [hprod, show (16 : ℝ) = 4 ^ 2 by norm_num, Real.sqrt_sq (by norm_num : (0 : ℝ) ≤ 4)]
    norm_num
  rw [calculate_correlation]
  rw [halign]
  rw [if_neg (by norm_num)]
  rw [hr, roundToR]
  norm_num

theorem roundToR_one (d : ℕ) : roundToR d 1 = 1 := by
  rw [roundToR]
  have h1 : (1 : ℝ) * 10 ^ d = ((10 ^ d : ℤ) : ℝ) := by push_cast; ring
  rw [h1, Int.floor_intCast]
  rw [if_pos (by norm_num)]
  rw [← h1]
  field_simp
